import Mathlib

/-!
The gofish `redfish` package: CoolingUnit and SecureBootDatabase.

A shallow embedding of `redfish/coolingunit.go` and `redfish/securebootdatabase.go`.

* Go structs are Lean structures; a pointer-receiver method takes the receiver value and
  returns the receiver after the call next to the method's results.
* The attached client is an explicit value that is threaded through every call; it carries
  the log of the requests issued so far.
* `encoding/json` is split in two layers.  The syntax layer (bytes to a JSON value) is the
  parameter `parse`.  The layer that stores a JSON value into a Go struct is embedded here,
  driven by the field declarations of the source.
* Slices are lists (`nil` and the empty slice are both `[]`), Go `int` is `Int` checked against
  the 64-bit range on decode, Go `map[string]error` is a key-unique association list.
-/

set_option autoImplicit false

namespace Gofish

/-! ## JSON values and the errors of the library -/

/-- Bytes of a document, as handed to `UnmarshalJSON`. -/
abbrev Bytes := List UInt8

/-- A JSON value.  `num` is an integer literal, `numLit` any other number literal (a fraction
or an exponent), kept as written. -/
inductive JValue where
  | null : JValue
  | bool (b : Bool) : JValue
  | num (n : Int) : JValue
  | numLit (lit : String) : JValue
  | str (s : String) : JValue
  | arr (elems : List JValue) : JValue
  | obj (members : List (String × JValue)) : JValue

/-- Errors of single-resource operations (section 7 of the specification). -/
inductive Error where
  | DecodeError : Error
  | TransportError (detail : String) : Error
  | UnsupportedActionError : Error
  deriving DecidableEq, Repr

/-! ## Key matching of `encoding/json`

A member name selects the struct field whose JSON name equals it exactly and otherwise the
field whose name is equal under case folding.  For the ASCII field names of this package the
folding is ASCII upper-casing plus the two non-ASCII runes whose simple fold orbit meets ASCII
(U+017F with `s`, U+212A with `k`). -/

/-- Case folding of one rune. -/
def foldRune (c : Char) : Char :=
  if c = Char.ofNat 0x17F then 'S'
  else if c = Char.ofNat 0x212A then 'K'
  else c.toUpper

/-- The folded form of a name. -/
def foldName (s : String) : List Char := s.data.map foldRune

/-- Field selection: `names` lists the fields of a struct with their JSON names, in declaration
order; the exact match is tried first, then the folded match. -/
def fieldFor {ι : Type} (names : List (ι × String)) (key : String) : Option ι :=
  match names.find? (fun p => p.2 == key) with
  | some p => some p.1
  | none =>
    match names.find? (fun p => foldName p.2 == foldName key) with
    | some p => some p.1
    | none => none

/-- Whether a member name selects the field called `name` in a struct whose field names are
pairwise distinct under folding. -/
def keyMatches (key name : String) : Bool := foldName key == foldName name

/-! ## Storing a JSON value into Go values -/

/-- Store into a `string` (also a named string type): `null` leaves the value untouched. -/
def decString (v : JValue) (cur : String) : Except Error String :=
  match v with
  | .null => .ok cur
  | .str s => .ok s
  | _ => .error .DecodeError

/-- Store into an `int` (64 bit). -/
def decInt (v : JValue) (cur : Int) : Except Error Int :=
  match v with
  | .null => .ok cur
  | .num n => if -(2 ^ 63 : Int) ≤ n ∧ n < 2 ^ 63 then .ok n else .error .DecodeError
  | _ => .error .DecodeError

/-- Store each element of an array into an empty slice: every element starts from the zero
value. -/
def decElems {α : Type} (zero : α) (dec : JValue → α → Except Error α) :
    List JValue → Except Error (List α)
  | [] => .ok []
  | v :: vs =>
    match dec v zero with
    | .error e => .error e
    | .ok a =>
      match decElems zero dec vs with
      | .error e => .error e
      | .ok as => .ok (a :: as)

/-- Store each element of an array into the slice that is there: an element at a position the
slice already has is stored into the value at that position, any further element starts from
the zero value; the slice ends with the array.  The capacity of a slice is not modelled. -/
def decElemsInto {α : Type} (zero : α) (dec : JValue → α → Except Error α) :
    List JValue → List α → Except Error (List α)
  | [], _ => .ok []
  | v :: vs, cur =>
    match dec v (cur.headD zero) with
    | .error e => .error e
    | .ok a =>
      match decElemsInto zero dec vs cur.tail with
      | .error e => .error e
      | .ok as => .ok (a :: as)

/-- Store into a slice: `null` gives the nil slice, an array is stored element by element into
the slice that is there. -/
def decSlice {α : Type} (zero : α) (dec : JValue → α → Except Error α)
    (v : JValue) (cur : List α) : Except Error (List α) :=
  match v with
  | .null => .ok []
  | .arr vs => decElemsInto zero dec vs cur
  | _ => .error .DecodeError

/-- Store the members of an object into a struct, one after the other.  The struct is a
function from field identifiers to field values; unknown names are skipped. -/
def decMembers {ι : Type} [DecidableEq ι] {τ : ι → Type} (names : List (ι × String))
    (decField : (i : ι) → JValue → τ i → Except Error (τ i)) :
    List (String × JValue) → ((i : ι) → τ i) → Except Error ((i : ι) → τ i)
  | [], t => .ok t
  | (k, v) :: ms, t =>
    match fieldFor names k with
    | none => decMembers names decField ms t
    | some f =>
      match decField f v (t f) with
      | .error e => .error e
      | .ok x => decMembers names decField ms (Function.update t f x)

/-- Store into a struct: `null` is a no-op, an object is stored member by member, anything else
is a type error. -/
def decStruct {ι : Type} [DecidableEq ι] {τ : ι → Type} (names : List (ι × String))
    (decField : (i : ι) → JValue → τ i → Except Error (τ i))
    (v : JValue) (t : (i : ι) → τ i) : Except Error ((i : ι) → τ i) :=
  match v with
  | .null => .ok t
  | .obj ms => decMembers names decField ms t
  | _ => .error .DecodeError

/-! ## Types of the library that the two source files use

The struct types `Coolant`, `RedundantGroup`, `common.Location` and `common.Status` are declared
in files that are not part of this development; they are parameters, each with its zero value
and its way of storing a JSON value. -/

/-- The struct types declared elsewhere in the library, with their zero value, the way a JSON
value is stored into them, and their JSON form. -/
structure Ext where
  Coolant : Type
  RedundantGroup : Type
  Location : Type
  Status : Type
  zeroCoolant : Coolant
  zeroRedundantGroup : RedundantGroup
  zeroLocation : Location
  zeroStatus : Status
  decCoolant : JValue → Coolant → Except Error Coolant
  decRedundantGroup : JValue → RedundantGroup → Except Error RedundantGroup
  decLocation : JValue → Location → Except Error Location
  decStatus : JValue → Status → Except Error Status
  encCoolant : Coolant → JValue
  encRedundantGroup : RedundantGroup → JValue
  encLocation : Location → JValue
  encStatus : Status → JValue

/-- Modelled from the spec: `common.Entity`, the identity (ID, self-URI) shared by every
resource type; the declaration of the struct is not in the two source files.  The client handle
it carries is the explicit `Client` argument of the operations below. -/
structure Entity where
  ODataID : String
  ID : String
  deriving DecidableEq, Repr

/-- Go `type CoolingEquipmentType string`. -/
abbrev CoolingEquipmentType := String

/-- Go `type CoolingUnitMode string`. -/
abbrev CoolingUnitMode := String

/-- Modelled from the spec: `common.Link`, a string-valued URI; empty means no linked
resource. -/
abbrev Link := String

/-- The single field of the wire shape of a link, `@odata.id`. -/
inductive LinkField where
  | ODataID : LinkField
  deriving DecidableEq, Repr

/-- JSON names of the wire shape of a link. -/
def linkNames : List (LinkField × String) := [(.ODataID, "@odata.id")]

/-- Modelled from the spec: storing a JSON value into a `common.Link`.  The glossary gives the
wire shape, the JSON object with the member `@odata.id`; the value is stored into a fresh
struct of that shape and the URI is kept. -/
def decLink (v : JValue) (_cur : Link) : Except Error Link :=
  match @decStruct LinkField _ (fun _ => String) linkNames (fun _ => decString) v (fun _ => "") with
  | .error e => .error e
  | .ok t => .ok (t .ODataID)

/-- Modelled from the spec: `common.Links`, an ordered sequence of links; `ToStrings` is the
list of the URIs in order, which in this embedding is the list itself. -/
abbrev Links := List Link

/-- Storing a JSON value into a `common.Links`. -/
def decLinks (v : JValue) (cur : Links) : Except Error Links := decSlice "" decLink v cur

/-! ## `CoolingUnit.UnmarshalJSON`: the local types -/

/-- Fields of the local struct `Links` of `CoolingUnit.UnmarshalJSON`. -/
inductive LinksField where
  | Chassis | ChassisCount | Facility | ManagedBy | ManagedByCount
  deriving DecidableEq, Repr

/-- Go types of the fields of the local struct `Links`. -/
def LinksTy : LinksField → Type
  | .Chassis => Links
  | .ChassisCount => Int
  | .Facility => Link
  | .ManagedBy => Links
  | .ManagedByCount => Int

/-- JSON names of the local struct `Links`. -/
def linksNames : List (LinksField × String) :=
  [(.Chassis, "Chassis"), (.ChassisCount, "Chassis@odata.count"), (.Facility, "Facility"),
   (.ManagedBy, "ManagedBy"), (.ManagedByCount, "ManagedBy@odata.count")]

/-- The local struct `Links`. -/
abbrev LinksStruct := (i : LinksField) → LinksTy i

/-- Zero value of the local struct `Links`. -/
def zeroLinks : LinksStruct
  | .Chassis => []
  | .ChassisCount => (0 : Int)
  | .Facility => ""
  | .ManagedBy => []
  | .ManagedByCount => (0 : Int)

/-- Storing into one field of the local struct `Links`. -/
def decLinksField : (i : LinksField) → JValue → LinksTy i → Except Error (LinksTy i)
  | .Chassis => decLinks
  | .ChassisCount => decInt
  | .Facility => decLink
  | .ManagedBy => decLinks
  | .ManagedByCount => decInt

/-- Fields of the struct under `#CoolingUnit.SetMode`. -/
inductive SetModeField where
  | AllowedCoolingUnitModes | Target
  deriving DecidableEq, Repr

/-- Go types of the fields of the struct under `#CoolingUnit.SetMode`. -/
def SetModeTy : SetModeField → Type
  | .AllowedCoolingUnitModes => List CoolingUnitMode
  | .Target => String

/-- JSON names of the struct under `#CoolingUnit.SetMode`. -/
def setModeNames : List (SetModeField × String) :=
  [(.AllowedCoolingUnitModes, "Mode@Redfish.AllowableValues"), (.Target, "Target")]

/-- The struct under `#CoolingUnit.SetMode`. -/
abbrev SetModeStruct := (i : SetModeField) → SetModeTy i

/-- Zero value of the struct under `#CoolingUnit.SetMode`. -/
def zeroSetMode : SetModeStruct
  | .AllowedCoolingUnitModes => []
  | .Target => ""

/-- Storing into one field of the struct under `#CoolingUnit.SetMode`. -/
def decSetModeField : (i : SetModeField) → JValue → SetModeTy i → Except Error (SetModeTy i)
  | .AllowedCoolingUnitModes => decSlice "" decString
  | .Target => decString

/-- The single field of the local struct `CoolingUnitActions`. -/
inductive ActionsField where
  | SetMode : ActionsField
  deriving DecidableEq, Repr

/-- JSON names of the local struct `CoolingUnitActions`. -/
def actionsNames : List (ActionsField × String) := [(.SetMode, "#CoolingUnit.SetMode")]

/-- The local struct `CoolingUnitActions`. -/
abbrev CoolingUnitActions := ActionsField → SetModeStruct

/-- Zero value of the local struct `CoolingUnitActions`. -/
def zeroActions : CoolingUnitActions := fun _ => zeroSetMode

/-- Storing into the field of the local struct `CoolingUnitActions`. -/
def decActionsField (_i : ActionsField) (v : JValue) (cur : SetModeStruct) :
    Except Error SetModeStruct :=
  decStruct setModeNames decSetModeField v cur

/-- Fields that `encoding/json` sees in the variable `t` of `CoolingUnit.UnmarshalJSON`: the
exported fields of the embedded `temp` (those of `common.Entity` included), then the fields
declared next to it.  The unexported fields of `temp` are invisible to the decoder. -/
inductive TField where
  | ODataID | ID | ODataContext | ODataEtag | ODataType | AllowedCoolingUnitModes | AssetTag
  | Coolant | CoolingCapacityWatts | Description | EquipmentType | FilterRedundancy
  | FirmwareVersion | Location | Manufacturer | Model | PartNumber | ProductionDate
  | PumpRedundancy | SerialNumber | Status | UserLabel | Version | ChassisCount | ManagedByCount
  | Actions | Assembly | CoolantConnectorRedundancy | EnvironmentMetrics | Filters
  | LeakDetection | PrimaryCoolantConnectors | Pumps | Reservoirs | SecondaryCoolantConnectors
  | Links
  deriving DecidableEq, Repr

/-- Go types of the fields of `t`. -/
def TTy (X : Ext) : TField → Type
  | .ODataID => String
  | .ID => String
  | .ODataContext => String
  | .ODataEtag => String
  | .ODataType => String
  | .AllowedCoolingUnitModes => List CoolingUnitMode
  | .AssetTag => String
  | .Coolant => X.Coolant
  | .CoolingCapacityWatts => Int
  | .Description => String
  | .EquipmentType => CoolingEquipmentType
  | .FilterRedundancy => List X.RedundantGroup
  | .FirmwareVersion => String
  | .Location => X.Location
  | .Manufacturer => String
  | .Model => String
  | .PartNumber => String
  | .ProductionDate => String
  | .PumpRedundancy => List X.RedundantGroup
  | .SerialNumber => String
  | .Status => X.Status
  | .UserLabel => String
  | .Version => String
  | .ChassisCount => Int
  | .ManagedByCount => Int
  | .Actions => CoolingUnitActions
  | .Assembly => Link
  | .CoolantConnectorRedundancy => Links
  | .EnvironmentMetrics => Link
  | .Filters => Link
  | .LeakDetection => Link
  | .PrimaryCoolantConnectors => Link
  | .Pumps => Link
  | .Reservoirs => Link
  | .SecondaryCoolantConnectors => Link
  | .Links => LinksStruct

/-- JSON names of the fields of `t`: the tag where the source gives one, the Go name
otherwise. -/
def tNames : List (TField × String) :=
  [(.ODataID, "@odata.id"), (.ID, "Id"), (.ODataContext, "@odata.context"),
   (.ODataEtag, "@odata.etag"), (.ODataType, "@odata.type"),
   (.AllowedCoolingUnitModes, "AllowedCoolingUnitModes"), (.AssetTag, "AssetTag"),
   (.Coolant, "Coolant"), (.CoolingCapacityWatts, "CoolingCapacityWatts"),
   (.Description, "Description"), (.EquipmentType, "EquipmentType"),
   (.FilterRedundancy, "FilterRedundancy"), (.FirmwareVersion, "FirmwareVersion"),
   (.Location, "Location"), (.Manufacturer, "Manufacturer"), (.Model, "Model"),
   (.PartNumber, "PartNumber"), (.ProductionDate, "ProductionDate"),
   (.PumpRedundancy, "PumpRedundancy"), (.SerialNumber, "SerialNumber"), (.Status, "Status"),
   (.UserLabel, "UserLabel"), (.Version, "Version"), (.ChassisCount, "ChassisCount"),
   (.ManagedByCount, "ManagedByCount"), (.Actions, "Actions"), (.Assembly, "Assembly"),
   (.CoolantConnectorRedundancy, "CoolantConnectorRedundancy"),
   (.EnvironmentMetrics, "EnvironmentMetrics"), (.Filters, "Filters"),
   (.LeakDetection, "LeakDetection"), (.PrimaryCoolantConnectors, "PrimaryCoolantConnectors"),
   (.Pumps, "Pumps"), (.Reservoirs, "Reservoirs"),
   (.SecondaryCoolantConnectors, "SecondaryCoolantConnectors"), (.Links, "Links")]

/-- The variable `t` of `CoolingUnit.UnmarshalJSON`. -/
abbrev TStruct (X : Ext) := (i : TField) → TTy X i

/-- Zero value of `t` (`var t struct ...`). -/
def zeroT (X : Ext) : TStruct X
  | .ODataID => ""
  | .ID => ""
  | .ODataContext => ""
  | .ODataEtag => ""
  | .ODataType => ""
  | .AllowedCoolingUnitModes => []
  | .AssetTag => ""
  | .Coolant => X.zeroCoolant
  | .CoolingCapacityWatts => (0 : Int)
  | .Description => ""
  | .EquipmentType => ""
  | .FilterRedundancy => []
  | .FirmwareVersion => ""
  | .Location => X.zeroLocation
  | .Manufacturer => ""
  | .Model => ""
  | .PartNumber => ""
  | .ProductionDate => ""
  | .PumpRedundancy => []
  | .SerialNumber => ""
  | .Status => X.zeroStatus
  | .UserLabel => ""
  | .Version => ""
  | .ChassisCount => (0 : Int)
  | .ManagedByCount => (0 : Int)
  | .Actions => zeroActions
  | .Assembly => ""
  | .CoolantConnectorRedundancy => []
  | .EnvironmentMetrics => ""
  | .Filters => ""
  | .LeakDetection => ""
  | .PrimaryCoolantConnectors => ""
  | .Pumps => ""
  | .Reservoirs => ""
  | .SecondaryCoolantConnectors => ""
  | .Links => zeroLinks

/-- Storing into one field of `t`. -/
def decTField (X : Ext) : (i : TField) → JValue → TTy X i → Except Error (TTy X i)
  | .ODataID => decString
  | .ID => decString
  | .ODataContext => decString
  | .ODataEtag => decString
  | .ODataType => decString
  | .AllowedCoolingUnitModes => decSlice "" decString
  | .AssetTag => decString
  | .Coolant => X.decCoolant
  | .CoolingCapacityWatts => decInt
  | .Description => decString
  | .EquipmentType => decString
  | .FilterRedundancy => decSlice X.zeroRedundantGroup X.decRedundantGroup
  | .FirmwareVersion => decString
  | .Location => X.decLocation
  | .Manufacturer => decString
  | .Model => decString
  | .PartNumber => decString
  | .ProductionDate => decString
  | .PumpRedundancy => decSlice X.zeroRedundantGroup X.decRedundantGroup
  | .SerialNumber => decString
  | .Status => X.decStatus
  | .UserLabel => decString
  | .Version => decString
  | .ChassisCount => decInt
  | .ManagedByCount => decInt
  | .Actions => decStruct actionsNames decActionsField
  | .Assembly => decLink
  | .CoolantConnectorRedundancy => decLinks
  | .EnvironmentMetrics => decLink
  | .Filters => decLink
  | .LeakDetection => decLink
  | .PrimaryCoolantConnectors => decLink
  | .Pumps => decLink
  | .Reservoirs => decLink
  | .SecondaryCoolantConnectors => decLink
  | .Links => decStruct linksNames decLinksField

/-- The call `json.Unmarshal(b, &t)` on the zero `t`: a syntax error of the bytes or a value
that does not fit the declared shape is an error. -/
def unmarshalT (X : Ext) (parse : Bytes → Option JValue) (b : Bytes) :
    Except Error (TStruct X) :=
  match parse b with
  | none => .error .DecodeError
  | some v => decStruct tNames (decTField X) v (zeroT X)

/-! ## `CoolingUnit` -/

/-- The struct `CoolingUnit`, exported and unexported fields. -/
structure CoolingUnit (X : Ext) where
  Entity : Entity
  ODataContext : String
  ODataEtag : String
  ODataType : String
  AllowedCoolingUnitModes : List CoolingUnitMode
  assembly : String
  AssetTag : String
  Coolant : X.Coolant
  coolantConnectorRedundancy : List String
  CoolingCapacityWatts : Int
  Description : String
  environmentMetrics : String
  EquipmentType : CoolingEquipmentType
  FilterRedundancy : List X.RedundantGroup
  filters : String
  FirmwareVersion : String
  leakDetection : String
  Location : X.Location
  Manufacturer : String
  Model : String
  PartNumber : String
  primaryCoolantConnectors : String
  ProductionDate : String
  PumpRedundancy : List X.RedundantGroup
  pumps : String
  reservoirs : String
  secondaryCoolantConnectors : String
  SerialNumber : String
  setMode : String
  Status : X.Status
  UserLabel : String
  Version : String
  rawData : Bytes
  chassis : List String
  ChassisCount : Int
  facility : String
  managedBy : List String
  ManagedByCount : Int

/-- The statements of `CoolingUnit.UnmarshalJSON` after the error check: the receiver is
overwritten by `t.temp`, then the links, the counts, the allowed modes and the action target
are taken from the auxiliary fields of `t`, and the bytes are kept as `rawData`. -/
def CoolingUnit.fromT (X : Ext) (t : TStruct X) (b : Bytes) : CoolingUnit X :=
  { Entity := { ODataID := t .ODataID, ID := t .ID }
    ODataContext := t .ODataContext
    ODataEtag := t .ODataEtag
    ODataType := t .ODataType
    AllowedCoolingUnitModes := (t .Actions .SetMode) .AllowedCoolingUnitModes
    assembly := t .Assembly
    AssetTag := t .AssetTag
    Coolant := t .Coolant
    coolantConnectorRedundancy := t .CoolantConnectorRedundancy
    CoolingCapacityWatts := t .CoolingCapacityWatts
    Description := t .Description
    environmentMetrics := t .EnvironmentMetrics
    EquipmentType := t .EquipmentType
    FilterRedundancy := t .FilterRedundancy
    filters := t .Filters
    FirmwareVersion := t .FirmwareVersion
    leakDetection := t .LeakDetection
    Location := t .Location
    Manufacturer := t .Manufacturer
    Model := t .Model
    PartNumber := t .PartNumber
    primaryCoolantConnectors := t .PrimaryCoolantConnectors
    ProductionDate := t .ProductionDate
    PumpRedundancy := t .PumpRedundancy
    pumps := t .Pumps
    reservoirs := t .Reservoirs
    secondaryCoolantConnectors := t .SecondaryCoolantConnectors
    SerialNumber := t .SerialNumber
    setMode := (t .Actions .SetMode) .Target
    Status := t .Status
    UserLabel := t .UserLabel
    Version := t .Version
    rawData := b
    chassis := (t .Links) .Chassis
    ChassisCount := (t .Links) .ChassisCount
    facility := (t .Links) .Facility
    managedBy := (t .Links) .ManagedBy
    ManagedByCount := (t .Links) .ManagedByCount }

/-- The method `CoolingUnit.UnmarshalJSON`.  On an error of `json.Unmarshal` the receiver is
left as it was and the error is returned; otherwise the receiver is assigned from `t`. -/
def CoolingUnit.UnmarshalJSON (X : Ext) (parse : Bytes → Option JValue)
    (coolingunit : CoolingUnit X) (b : Bytes) : CoolingUnit X × Option Error :=
  match unmarshalT X parse b with
  | .error err => (coolingunit, some err)
  | .ok t => (CoolingUnit.fromT X t b, none)

/-- The zero value of `CoolingUnit` (`var coolingunit CoolingUnit`). -/
def CoolingUnit.zero (X : Ext) : CoolingUnit X :=
  { Entity := { ODataID := "", ID := "" }, ODataContext := "", ODataEtag := "", ODataType := "",
    AllowedCoolingUnitModes := [], assembly := "", AssetTag := "", Coolant := X.zeroCoolant,
    coolantConnectorRedundancy := [], CoolingCapacityWatts := 0, Description := "",
    environmentMetrics := "", EquipmentType := "", FilterRedundancy := [], filters := "",
    FirmwareVersion := "", leakDetection := "", Location := X.zeroLocation, Manufacturer := "",
    Model := "", PartNumber := "", primaryCoolantConnectors := "", ProductionDate := "",
    PumpRedundancy := [], pumps := "", reservoirs := "", secondaryCoolantConnectors := "",
    SerialNumber := "", setMode := "", Status := X.zeroStatus, UserLabel := "", Version := "",
    rawData := [], chassis := [], ChassisCount := 0, facility := "", managedBy := [],
    ManagedByCount := 0 }

/-! ## Concrete inputs used by the examples -/

/-- An instance of the external struct types in which each of them carries no data. -/
def unitExt : Ext :=
  { Coolant := Unit, RedundantGroup := Unit, Location := Unit, Status := Unit,
    zeroCoolant := (), zeroRedundantGroup := (), zeroLocation := (), zeroStatus := (),
    decCoolant := fun _ c => .ok c, decRedundantGroup := fun _ c => .ok c,
    decLocation := fun _ c => .ok c, decStatus := fun _ c => .ok c,
    encCoolant := fun _ => .obj [], encRedundantGroup := fun _ => .obj [],
    encLocation := fun _ => .obj [], encStatus := fun _ => .obj [] }

/-- The scenario document of section 8:
`{"Id":"1","AssetTag":"A1","Links":{"Chassis":[{"@odata.id":"/redfish/v1/Chassis/1"}],"Chassis@odata.count":1}}`. -/
def scenarioDoc : JValue :=
  .obj [("Id", .str "1"), ("AssetTag", .str "A1"),
        ("Links", .obj [("Chassis", .arr [.obj [("@odata.id", .str "/redfish/v1/Chassis/1")]]),
                        ("Chassis@odata.count", .num 1)])]

/-! ## Reading a document

These functions read a JSON object the way the specification speaks about it ("the value the document
gives for a field"); the decoder above does not use them. -/

/-- The values of the members of an object whose name selects the field called `name`, in
document order.  A document gives a field one value when this list has one element. -/
def memberValues (members : List (String × JValue)) (name : String) : List JValue :=
  (members.filter (fun kv => keyMatches kv.1 name)).map Prod.snd

/-- The URI of a link object: the string under its only `@odata.id` member. -/
def linkURI (v : JValue) : Option String :=
  match v with
  | .obj ms =>
    match memberValues ms "@odata.id" with
    | [.str u] => some u
    | _ => none
  | _ => none

/-- The link that is stored for an element of an array of links, for an element that is
`null` or an object with at most one `@odata.id` member: the string under `@odata.id`, and the
empty string when the element has no such member or has `null` under it. -/
def storedLink (v : JValue) : Option String :=
  match v with
  | .null => some ""
  | .obj ms =>
    match memberValues ms "@odata.id" with
    | [] => some ""
    | [.null] => some ""
    | [.str u] => some u
    | _ => none
  | _ => none

/-- The field names of a struct select fields unambiguously: no field is listed twice and no
two names are equal under case folding. -/
def WellNamed {ι : Type} (names : List (ι × String)) : Prop :=
  (names.map Prod.fst).Nodup ∧ (names.map (fun p => foldName p.2)).Nodup

/-! ## The client and the requests it is asked to send -/

/-- A request handed to the client. -/
inductive Request where
  | get (uri : String) : Request
  | post (uri : String) (body : JValue) : Request
  | patch (uri : String) (body : JValue) : Request

/-- Modelled from the spec: the client of section 6, an external collaborator.  `respond` is
the answer of the service to a request given the requests sent before it, so a service may
answer the same request differently at different times; `log` is the list of the requests
sent so far, oldest first. -/
structure Client where
  respond : List Request → Request → Except Error Bytes
  log : List Request

/-- Send one request: the answer of the service, and the client with the request logged. -/
def Client.send (c : Client) (r : Request) : Except Error Bytes × Client :=
  (c.respond c.log r, { c with log := c.log ++ [r] })

/-- Client method `Get(uri)`. -/
def Client.Get (c : Client) (uri : String) : Except Error Bytes × Client :=
  c.send (.get uri)

/-- Equality of JSON values, member by member and in order. -/
def JValue.beq : JValue → JValue → Bool
  | .null, .null => true
  | .bool a, .bool b => a == b
  | .num a, .num b => a == b
  | .numLit a, .numLit b => a == b
  | .str a, .str b => a == b
  | .arr a, .arr b => beqList a b
  | .obj a, .obj b => beqMembers a b
  | _, _ => false
where
  /-- Equality of two lists of values. -/
  beqList : List JValue → List JValue → Bool
    | [], [] => true
    | x :: xs, y :: ys => JValue.beq x y && beqList xs ys
    | _, _ => false
  /-- Equality of two lists of members. -/
  beqMembers : List (String × JValue) → List (String × JValue) → Bool
    | [], [] => true
    | (k, x) :: xs, (l, y) :: ys => k == l && JValue.beq x y && beqMembers xs ys
    | _, _ => false

/-! ## Methods of `common.Entity` used by `CoolingUnit` -/

/-- Modelled from the spec: `Entity.Post`, the Action Invoker of section 4.5, which is not in
the two source files.  An empty target fails with `UnsupportedActionError` and nothing is
sent; otherwise the payload is posted and the error of the service, if any, is returned. -/
def Entity.Post (c : Client) (uri : String) (payload : JValue) : Option Error × Client :=
  if uri = "" then (some .UnsupportedActionError, c)
  else
    match c.send (.post uri payload) with
    | (.error e, c1) => (some e, c1)
    | (.ok _, c1) => (none, c1)

/-- Modelled from the spec: the write of the Read-Modify-Write Engine (section 4.4), a patch
sent to the self-URI of the resource; the error of the service, if any, is returned. -/
def Entity.Patch (c : Client) (uri : String) (payload : JValue) : Option Error × Client :=
  match c.send (.patch uri payload) with
  | (.error e, c1) => (some e, c1)
  | (.ok _, c1) => (none, c1)

/-- Modelled from the spec: one step of the comparison of section 4.4.  A field of the
whitelist enters the patch body, with its current value, when its current value differs from
the value of the same field of the resource decoded from the raw bytes. -/
def changedField {R : Type} (fieldValue : R → String → Option JValue) (original updated : R)
    (name : String) : Option (String × JValue) :=
  match fieldValue updated name, fieldValue original name with
  | some cur, some orig => if JValue.beq cur orig then none else some (name, cur)
  | _, _ => none

/-- Modelled from the spec: `Entity.UpdateFromRawData`, the Read-Modify-Write Engine of
section 4.4, which is not in the two source files.  The raw bytes are decoded into a resource
of the same type; the patch body holds the whitelisted fields whose current value differs from
the decoded one; an empty body sends nothing and succeeds, any other body is sent as one patch
to the self-URI. -/
def Entity.UpdateFromRawData {R : Type} (decode : Bytes → Except Error R)
    (fieldValue : R → String → Option JValue) (selfURI : String) (updateEntity : R)
    (rawData : Bytes) (allowedUpdates : List String) (c : Client) : Option Error × Client :=
  match decode rawData with
  | .error e => (some e, c)
  | .ok original =>
    let payload := allowedUpdates.filterMap (changedField fieldValue original updateEntity)
    if payload.isEmpty then (none, c) else Entity.Patch c selfURI (.obj payload)

/-- Modelled from the spec: the Lazy Resolver of section 4.2 for one resource
(`common.GetObject`, `GetEnvironmentMetrics`, `GetLeakDetection`, none of them in the two
source files): one GET to the URI of the link, then the decoding of the answer.
`GetSecureBootDatabase` below is the same code in the source. -/
def GetObject {α : Type} (decode : Bytes → Except Error α) (c : Client) (uri : String) :
    Except Error α × Client :=
  match c.Get uri with
  | (.error err, c1) => (.error err, c1)
  | (.ok body, c1) =>
    match decode body with
    | .error err => (.error err, c1)
    | .ok obj => (.ok obj, c1)

/-! ## Methods of `CoolingUnit` -/

/-- Decoding a fresh `CoolingUnit` from bytes (`json.Unmarshal(rawData, &original)`). -/
def CoolingUnit.decode (X : Ext) (parse : Bytes → Option JValue) (b : Bytes) :
    Except Error (CoolingUnit X) :=
  match CoolingUnit.UnmarshalJSON X parse (CoolingUnit.zero X) b with
  | (_, some err) => .error err
  | (cu, none) => .ok cu

/-- The JSON form of the exported fields of a `CoolingUnit`, by Go field name. -/
def CoolingUnit.fieldValue (X : Ext) (cu : CoolingUnit X) (name : String) : Option JValue :=
  if name = "ODataID" then some (.str cu.Entity.ODataID)
  else if name = "ID" then some (.str cu.Entity.ID)
  else if name = "ODataContext" then some (.str cu.ODataContext)
  else if name = "ODataEtag" then some (.str cu.ODataEtag)
  else if name = "ODataType" then some (.str cu.ODataType)
  else if name = "AllowedCoolingUnitModes" then
    some (.arr (cu.AllowedCoolingUnitModes.map JValue.str))
  else if name = "AssetTag" then some (.str cu.AssetTag)
  else if name = "Coolant" then some (X.encCoolant cu.Coolant)
  else if name = "CoolingCapacityWatts" then some (.num cu.CoolingCapacityWatts)
  else if name = "Description" then some (.str cu.Description)
  else if name = "EquipmentType" then some (.str cu.EquipmentType)
  else if name = "FilterRedundancy" then
    some (.arr (cu.FilterRedundancy.map X.encRedundantGroup))
  else if name = "FirmwareVersion" then some (.str cu.FirmwareVersion)
  else if name = "Location" then some (X.encLocation cu.Location)
  else if name = "Manufacturer" then some (.str cu.Manufacturer)
  else if name = "Model" then some (.str cu.Model)
  else if name = "PartNumber" then some (.str cu.PartNumber)
  else if name = "ProductionDate" then some (.str cu.ProductionDate)
  else if name = "PumpRedundancy" then some (.arr (cu.PumpRedundancy.map X.encRedundantGroup))
  else if name = "SerialNumber" then some (.str cu.SerialNumber)
  else if name = "Status" then some (X.encStatus cu.Status)
  else if name = "UserLabel" then some (.str cu.UserLabel)
  else if name = "Version" then some (.str cu.Version)
  else if name = "ChassisCount" then some (.num cu.ChassisCount)
  else if name = "ManagedByCount" then some (.num cu.ManagedByCount)
  else none

/-- The method `CoolingUnit.SetMode`: the properties `{"Mode": mode}` are posted to the stored
action target.  The receiver is not assigned. -/
def CoolingUnit.SetMode (X : Ext) (coolingunit : CoolingUnit X) (mode : CoolingUnitMode)
    (c : Client) : CoolingUnit X × Option Error × Client :=
  let properties := JValue.obj [("Mode", .str mode)]
  let r := Entity.Post c coolingunit.setMode properties
  (coolingunit, r.1, r.2)

/-- The method `CoolingUnit.Update`: the engine is called with the receiver, its raw data and
the whitelist `AssetTag`, `UserLabel`.  The receiver is not assigned. -/
def CoolingUnit.Update (X : Ext) (parse : Bytes → Option JValue) (coolingunit : CoolingUnit X)
    (c : Client) : CoolingUnit X × Option Error × Client :=
  let readWriteFields := ["AssetTag", "UserLabel"]
  let r := Entity.UpdateFromRawData (CoolingUnit.decode X parse) (CoolingUnit.fieldValue X)
    coolingunit.Entity.ODataID coolingunit coolingunit.rawData readWriteFields c
  (coolingunit, r.1, r.2)

/-- The method `CoolingUnit.EnvironmentMetrics`: `(nil, nil)` on the empty link, otherwise the
resource behind the link.  `decode` decodes an `EnvironmentMetrics`, a type declared outside
the two source files. -/
def CoolingUnit.EnvironmentMetrics (X : Ext) {α : Type} (decode : Bytes → Except Error α)
    (coolingunit : CoolingUnit X) (c : Client) :
    CoolingUnit X × (Option α × Option Error) × Client :=
  if coolingunit.environmentMetrics = "" then (coolingunit, (none, none), c)
  else
    match GetObject decode c coolingunit.environmentMetrics with
    | (.error err, c1) => (coolingunit, (none, some err), c1)
    | (.ok obj, c1) => (coolingunit, (some obj, none), c1)

/-- The method `CoolingUnit.LeakDetection`: `(nil, nil)` on the empty link, otherwise the
resource behind the link.  `decode` decodes a `LeakDetection`, a type declared outside the two
source files. -/
def CoolingUnit.LeakDetection (X : Ext) {α : Type} (decode : Bytes → Except Error α)
    (coolingunit : CoolingUnit X) (c : Client) :
    CoolingUnit X × (Option α × Option Error) × Client :=
  if coolingunit.leakDetection = "" then (coolingunit, (none, none), c)
  else
    match GetObject decode c coolingunit.leakDetection with
    | (.error err, c1) => (coolingunit, (none, some err), c1)
    | (.ok obj, c1) => (coolingunit, (some obj, none), c1)

/-! ## Collections -/

/-- Go `map[string]error`: a list of entries with pairwise distinct keys.  The order of the
list has no meaning. -/
abbrev FailureMap := List (String × Error)

/-- The map assignment `m[k] = v`: an entry under `k` is replaced, otherwise one is added. -/
def FailureMap.set (m : FailureMap) (k : String) (v : Error) : FailureMap :=
  m.filter (fun p => !(p.1 == k)) ++ [(k, v)]

/-- Modelled from the spec: `common.CollectionError`, a mapping from URI to error. -/
structure CollectionError where
  Failures : FailureMap
  deriving DecidableEq, Repr

/-- Modelled from the spec: `common.NewCollectionError`, the error with no entries. -/
def NewCollectionError : CollectionError := { Failures := [] }

/-- Modelled from the spec: `CollectionError.Empty`, no entries, which is success. -/
def CollectionError.Empty (e : CollectionError) : Bool := e.Failures.isEmpty

/-- Modelled from the spec: one page of a collection endpoint, the member links and the link
of the next page (empty on the last page). -/
structure Page where
  Members : List String
  NextLink : String
  deriving DecidableEq, Repr

/-- Modelled from the spec: `common.CollectList`, the producer of section 4.3, which is not in
the two source files.  Pages are fetched one after the other; `get` is called for every member
of a page; the first page that cannot be fetched or decoded ends the listing with its error.
The workers of a page run here one after the other in member order, one of the schedules the
source allows.  `fuel` bounds the number of pages; `none` means the bound was reached. -/
def CollectList {σ : Type} (decodePage : Bytes → Except Error Page)
    (get : String → σ × Client → σ × Client) :
    Nat → Client → String → σ → Option (Option Error × σ × Client)
  | 0, _, _, _ => none
  | fuel + 1, c, link, s =>
    match c.Get link with
    | (.error err, c1) => some (some err, s, c1)
    | (.ok body, c1) =>
      match decodePage body with
      | .error err => some (some err, s, c1)
      | .ok page =>
        let st := page.Members.foldl (fun st m => get m st) (s, c1)
        if page.NextLink = "" then some (none, st.1, st.2)
        else CollectList decodePage get fuel st.2 page.NextLink st.1

/-- The local struct `GetResult` of the listing functions: what a worker sends on the
channel. -/
structure GetResult (α : Type) where
  Item : Option α
  Link : String
  Error : Option Error

/-- What a listing function returns, with the client after the call. -/
structure Listing (α : Type) where
  result : List α
  err : Option CollectionError
  client : Client

/-- The loop `for r := range ch` of the listing functions, run by the consumer on what was
sent on the channel: a failed fetch is assigned to the failure map under its link, a fetched
item is appended to the result. -/
def drain {α : Type} :
    List (GetResult α) → List α × CollectionError → List α × CollectionError
  | [], st => st
  | r :: rs, (result, collectionError) =>
    match r.Error, r.Item with
    | some err, _ =>
      drain rs (result, { Failures := collectionError.Failures.set r.Link err })
    | none, some item => drain rs (result ++ [item], collectionError)
    | none, none => drain rs (result, collectionError) -- no worker sends this

/-- Modelled from the spec: `common.GetCollectionObjects` and the `ListReferenced...`
functions of the other resource types, the Collection Fetcher of section 4.3; they are not in
the two source files and follow `ListReferencedSecureBootDatabases` below. -/
def GetCollectionObjects {α : Type} (decodePage : Bytes → Except Error Page)
    (decode : Bytes → Except Error α) (fuel : Nat) (c : Client) (link : String) :
    Option (Listing α) :=
  if link = "" then some { result := [], err := none, client := c }
  else
    let get := fun (link : String) (st : List (GetResult α) × Client) =>
      match GetObject decode st.2 link with
      | (.error err, c1) => (st.1 ++ [{ Item := none, Link := link, Error := some err }], c1)
      | (.ok item, c1) => (st.1 ++ [{ Item := some item, Link := link, Error := none }], c1)
    match CollectList decodePage get fuel c link [] with
    | none => none
    | some (err, ch, c1) =>
      let st := drain ch ([], NewCollectionError)
      let collectionError : CollectionError :=
        match err with
        | some e => { Failures := st.2.Failures.set link e }
        | none => st.2
      if collectionError.Empty then some { result := st.1, err := none, client := c1 }
      else some { result := st.1, err := some collectionError, client := c1 }

/-- The method `CoolingUnit.Assembly`. -/
def CoolingUnit.Assembly (X : Ext) {α : Type} (decodePage : Bytes → Except Error Page)
    (decode : Bytes → Except Error α) (fuel : Nat) (coolingunit : CoolingUnit X) (c : Client) :
    CoolingUnit X × Option (Listing α) :=
  (coolingunit, GetCollectionObjects decodePage decode fuel c coolingunit.assembly)

/-- The method `CoolingUnit.Filters`. -/
def CoolingUnit.Filters (X : Ext) {α : Type} (decodePage : Bytes → Except Error Page)
    (decode : Bytes → Except Error α) (fuel : Nat) (coolingunit : CoolingUnit X) (c : Client) :
    CoolingUnit X × Option (Listing α) :=
  (coolingunit, GetCollectionObjects decodePage decode fuel c coolingunit.filters)

/-- The method `CoolingUnit.PrimaryCoolantConnectors`. -/
def CoolingUnit.PrimaryCoolantConnectors (X : Ext) {α : Type}
    (decodePage : Bytes → Except Error Page) (decode : Bytes → Except Error α) (fuel : Nat)
    (coolingunit : CoolingUnit X) (c : Client) : CoolingUnit X × Option (Listing α) :=
  (coolingunit,
    GetCollectionObjects decodePage decode fuel c coolingunit.primaryCoolantConnectors)

/-- The method `CoolingUnit.Pumps`. -/
def CoolingUnit.Pumps (X : Ext) {α : Type} (decodePage : Bytes → Except Error Page)
    (decode : Bytes → Except Error α) (fuel : Nat) (coolingunit : CoolingUnit X) (c : Client) :
    CoolingUnit X × Option (Listing α) :=
  (coolingunit, GetCollectionObjects decodePage decode fuel c coolingunit.pumps)

/-- The method `CoolingUnit.Reservoirs`. -/
def CoolingUnit.Reservoirs (X : Ext) {α : Type} (decodePage : Bytes → Except Error Page)
    (decode : Bytes → Except Error α) (fuel : Nat) (coolingunit : CoolingUnit X) (c : Client) :
    CoolingUnit X × Option (Listing α) :=
  (coolingunit, GetCollectionObjects decodePage decode fuel c coolingunit.reservoirs)

/-- The method `CoolingUnit.SecondaryCoolantConnectors`. -/
def CoolingUnit.SecondaryCoolantConnectors (X : Ext) {α : Type}
    (decodePage : Bytes → Except Error Page) (decode : Bytes → Except Error α) (fuel : Nat)
    (coolingunit : CoolingUnit X) (c : Client) : CoolingUnit X × Option (Listing α) :=
  (coolingunit,
    GetCollectionObjects decodePage decode fuel c coolingunit.secondaryCoolantConnectors)

/-! ## `SecureBootDatabase` -/

/-- Fields of `common.LinksCollection`. -/
inductive LinksCollectionField where
  | Count | Members
  deriving DecidableEq, Repr

/-- Go types of the fields of `common.LinksCollection`. -/
def LinksCollectionTy : LinksCollectionField → Type
  | .Count => Int
  | .Members => Links

/-- JSON names of `common.LinksCollection`. -/
def linksCollectionNames : List (LinksCollectionField × String) :=
  [(.Count, "Members@odata.count"), (.Members, "Members")]

/-- Modelled from the spec: `common.LinksCollection`, a Link Collection of section 3, an
ordered sequence of links and a declared count; `ToStrings` is its `Members`. -/
abbrev LinksCollection := (i : LinksCollectionField) → LinksCollectionTy i

/-- Zero value of `common.LinksCollection`. -/
def zeroLinksCollection : LinksCollection
  | .Count => (0 : Int)
  | .Members => []

/-- Storing into one field of `common.LinksCollection`. -/
def decLinksCollectionField :
    (i : LinksCollectionField) → JValue → LinksCollectionTy i → Except Error (LinksCollectionTy i)
  | .Count => decInt
  | .Members => decLinks

/-- Fields that `encoding/json` sees in the variable `t` of
`SecureBootDatabase.UnmarshalJSON`. -/
inductive SField where
  | ODataID | ID | ODataContext | ODataEtag | ODataType | DatabaseID | Description | OEM
  | Certificates | Signatures
  deriving DecidableEq, Repr

/-- Go types of the fields of that `t`; a `json.RawMessage` is the JSON value it holds, absent
when nil. -/
def STy : SField → Type
  | .OEM => Option JValue
  | .Certificates => LinksCollection
  | .Signatures => LinksCollection
  | _ => String

/-- JSON names of the fields of that `t`. -/
def sNames : List (SField × String) :=
  [(.ODataID, "@odata.id"), (.ID, "Id"), (.ODataContext, "@odata.context"),
   (.ODataEtag, "@odata.etag"), (.ODataType, "@odata.type"), (.DatabaseID, "DatabaseID"),
   (.Description, "Description"), (.OEM, "Oem"), (.Certificates, "Certificates"),
   (.Signatures, "Signatures")]

/-- Zero value of that `t`. -/
def zeroS : (i : SField) → STy i
  | .ODataID => ""
  | .ID => ""
  | .ODataContext => ""
  | .ODataEtag => ""
  | .ODataType => ""
  | .DatabaseID => ""
  | .Description => ""
  | .OEM => none
  | .Certificates => zeroLinksCollection
  | .Signatures => zeroLinksCollection

/-- Storing into one field of that `t`. -/
def decSField : (i : SField) → JValue → STy i → Except Error (STy i)
  | .ODataID => decString
  | .ID => decString
  | .ODataContext => decString
  | .ODataEtag => decString
  | .ODataType => decString
  | .DatabaseID => decString
  | .Description => decString
  | .OEM => fun v _ => .ok (some v)
  | .Certificates => decStruct linksCollectionNames decLinksCollectionField
  | .Signatures => decStruct linksCollectionNames decLinksCollectionField

/-- The struct `SecureBootDatabase`. -/
structure SecureBootDatabase where
  Entity : Entity
  ODataContext : String
  ODataEtag : String
  ODataType : String
  certificates : List String
  DatabaseID : String
  Description : String
  OEM : Option JValue
  signatures : List String

/-- The zero value of `SecureBootDatabase`. -/
def SecureBootDatabase.zero : SecureBootDatabase :=
  { Entity := { ODataID := "", ID := "" }, ODataContext := "", ODataEtag := "", ODataType := "",
    certificates := [], DatabaseID := "", Description := "", OEM := none, signatures := [] }

/-- The method `SecureBootDatabase.UnmarshalJSON`. -/
def SecureBootDatabase.UnmarshalJSON (parse : Bytes → Option JValue)
    (securebootdatabase : SecureBootDatabase) (b : Bytes) : SecureBootDatabase × Option Error :=
  match (match parse b with
         | none => Except.error Error.DecodeError
         | some v => decStruct sNames decSField v zeroS) with
  | .error err => (securebootdatabase, some err)
  | .ok t =>
    ({ Entity := { ODataID := t .ODataID, ID := t .ID }
       ODataContext := t .ODataContext
       ODataEtag := t .ODataEtag
       ODataType := t .ODataType
       certificates := (t .Certificates) .Members
       DatabaseID := t .DatabaseID
       Description := t .Description
       OEM := t .OEM
       signatures := (t .Signatures) .Members }, none)

/-- The body of the loops of `Certificates` and `Signatures`: one fetch; a failure is written
to the failure map under the URI, a fetched item is appended to the result. -/
def fetchInto {α : Type} (getItem : Client → String → Except Error α × Client)
    (st : List α × CollectionError × Client) (uri : String) :
    List α × CollectionError × Client :=
  match getItem st.2.2 uri with
  | (.error err, c1) => (st.1, { Failures := st.2.1.Failures.set uri err }, c1)
  | (.ok item, c1) => (st.1 ++ [item], st.2.1, c1)

/-- The method `SecureBootDatabase.Certificates`.  `GetCertificate` is the fetch of one certificate
through the client, a function declared outside the two source files; it is a parameter. -/
def SecureBootDatabase.Certificates {α : Type}
    (GetCertificate : Client → String → Except Error α × Client)
    (securebootdatabase : SecureBootDatabase) (c : Client) :
    SecureBootDatabase × (List α × Option CollectionError) × Client :=
  let st := securebootdatabase.certificates.foldl (fetchInto GetCertificate) ([], NewCollectionError, c)
  if st.2.1.Empty then (securebootdatabase, (st.1, none), st.2.2)
  else (securebootdatabase, (st.1, some st.2.1), st.2.2)

/-- The method `SecureBootDatabase.Signatures`.  `GetSignature` is the fetch of one signature
through the client, a function declared outside the two source files; it is a parameter. -/
def SecureBootDatabase.Signatures {α : Type}
    (GetSignature : Client → String → Except Error α × Client)
    (securebootdatabase : SecureBootDatabase) (c : Client) :
    SecureBootDatabase × (List α × Option CollectionError) × Client :=
  let st := securebootdatabase.signatures.foldl (fetchInto GetSignature) ([], NewCollectionError, c)
  if st.2.1.Empty then (securebootdatabase, (st.1, none), st.2.2)
  else (securebootdatabase, (st.1, some st.2.1), st.2.2)

/-- The function `GetSecureBootDatabase`: one GET, then the decoding of the answer. -/
def GetSecureBootDatabase (parse : Bytes → Option JValue) (c : Client) (uri : String) :
    Except Error SecureBootDatabase × Client :=
  match c.Get uri with
  | (.error err, c1) => (.error err, c1)
  | (.ok body, c1) =>
    match SecureBootDatabase.UnmarshalJSON parse SecureBootDatabase.zero body with
    | (_, some err) => (.error err, c1)
    | (securebootdatabase, none) => (.ok securebootdatabase, c1)

/-- The closure `get` of `ListReferencedSecureBootDatabases`, run by a worker: one member is
fetched and the outcome is sent on the channel.  The state is what was sent so far and the
client. -/
def sendSecureBootDatabase (parse : Bytes → Option JValue) (link : String)
    (st : List (GetResult SecureBootDatabase) × Client) :
    List (GetResult SecureBootDatabase) × Client :=
  match GetSecureBootDatabase parse st.2 link with
  | (.error err, c1) => (st.1 ++ [{ Item := none, Link := link, Error := some err }], c1)
  | (.ok securebootdatabase, c1) =>
    (st.1 ++ [{ Item := some securebootdatabase, Link := link, Error := none }], c1)

/-- The function `ListReferencedSecureBootDatabases`.  The empty link returns at once.
Otherwise the producer task runs `CollectList` with the closure `get`; the consumer drains the
channel; when the listing itself fails the producer task assigns
`collectionError.Failures[link]` before it closes the channel.  The source does not order that
assignment with those of the consumer loop; a function has to pick an order, and here the
assignments of the consumer come first. -/
def ListReferencedSecureBootDatabases (parse : Bytes → Option JValue)
    (decodePage : Bytes → Except Error Page) (fuel : Nat) (c : Client) (link : String) :
    Option (Listing SecureBootDatabase) :=
  if link = "" then some { result := [], err := none, client := c }
  else
    match CollectList decodePage (sendSecureBootDatabase parse) fuel c link [] with
    | none => none
    | some (err, ch, c1) =>
      let st := drain ch ([], NewCollectionError)
      let collectionError : CollectionError :=
        match err with
        | some e => { Failures := st.2.Failures.set link e }
        | none => st.2
      if collectionError.Empty then some { result := st.1, err := none, client := c1 }
      else some { result := st.1, err := some collectionError, client := c1 }

/-- A document whose `Links.Chassis` has, after a link object, an object without `@odata.id`
and a `null`, and whose declared count is 5:
`{"AssetTag":"A1","Links":{"Chassis":[{"@odata.id":"/redfish/v1/Chassis/1"},{},null],"Chassis@odata.count":5}}`. -/
def gapDoc : JValue :=
  .obj [("AssetTag", .str "A1"),
        ("Links", .obj [("Chassis", .arr [.obj [("@odata.id", .str "/redfish/v1/Chassis/1")],
                                          .obj [], .null]),
                        ("Chassis@odata.count", .num 5)])]

/-- The elements of `Links.Chassis` in `gapDoc`. -/
def gapElems : List JValue :=
  [.obj [("@odata.id", .str "/redfish/v1/Chassis/1")], .obj [], .null]

/-- Members of a document with inline fields only, no `Links` and no `Actions`:
`{"Id":"1","AssetTag":"A1","AllowedCoolingUnitModes":["Enabled"],"ChassisCount":2,"ManagedByCount":1}`. -/
def inlineMembers : List (String × JValue) :=
  [("Id", .str "1"), ("AssetTag", .str "A1"),
   ("AllowedCoolingUnitModes", .arr [.str "Enabled"]), ("ChassisCount", .num 2),
   ("ManagedByCount", .num 1)]

/-- A client that has sent nothing and whose service answers every request with an empty
body. -/
def quietClient : Client := { respond := fun _ _ => .ok [], log := [] }

/-- A client that has sent nothing and whose service refuses every request. -/
def downClient : Client := { respond := fun _ _ => .error (.TransportError "down"), log := [] }

/-- The patch body that the whitelist law predicts for a resource `cu` whose raw data decode
to `cu0`: `AssetTag` when it differs, then `UserLabel` when it differs, each with its current
value. -/
def expectedPatch (X : Ext) (cu0 cu : CoolingUnit X) : List (String × JValue) :=
  (if cu.AssetTag = cu0.AssetTag then [] else [("AssetTag", JValue.str cu.AssetTag)]) ++
  (if cu.UserLabel = cu0.UserLabel then [] else [("UserLabel", JValue.str cu.UserLabel)])

/-- Bytes standing for the scenario document in the examples (the parser is a parameter). -/
def scenarioBytes : Bytes := [123, 125]

/-- The scenario resource: the scenario document decoded into the zero resource. -/
def scenarioUnit : CoolingUnit unitExt :=
  (CoolingUnit.UnmarshalJSON unitExt (fun _ => some scenarioDoc) (CoolingUnit.zero unitExt)
    scenarioBytes).1

/-- A resource served at `/redfish/v1/ThermalEquipment/CDUs/1`:
`{"@odata.id":"/redfish/v1/ThermalEquipment/CDUs/1","Id":"1","AssetTag":"A1","Description":"rack 4"}`. -/
def servedDoc : JValue :=
  .obj [("@odata.id", .str "/redfish/v1/ThermalEquipment/CDUs/1"), ("Id", .str "1"),
        ("AssetTag", .str "A1"), ("Description", .str "rack 4")]

/-- The resource decoded from `servedDoc`. -/
def servedUnit : CoolingUnit unitExt :=
  (CoolingUnit.UnmarshalJSON unitExt (fun _ => some servedDoc) (CoolingUnit.zero unitExt)
    scenarioBytes).1

/-- The resource `servedUnit` after the caller set `AssetTag` to "A2" and also changed the
fields `Description` and `Manufacturer`, which are not in the whitelist. -/
def editedUnit : CoolingUnit unitExt :=
  { servedUnit with AssetTag := "A2", Description := "rack 5", Manufacturer := "ACME" }

/-! ## Reading the outcomes of member fetches

These functions describe a run of member fetches the way the specification speaks about it; the
methods above do not use them. -/

/-- The outcome of the fetch of each link in turn, every fetch made on the client left by the
one before it. -/
def fetchOutcomes {α : Type} (getItem : Client → String → Except Error α × Client) :
    Client → List String → List (String × Except Error α)
  | _, [] => []
  | c, u :: us => (u, (getItem c u).1) :: fetchOutcomes getItem (getItem c u).2 us

/-- The failed fetches among the outcomes, each with its URI and its error. -/
def failures {α : Type} (outs : List (String × Except Error α)) : List (String × Error) :=
  outs.filterMap (fun p => match p.2 with
    | .error e => some (p.1, e)
    | .ok _ => none)

/-- The URIs of the failed fetches, in order, one per failed fetch. -/
def failedURIs {α : Type} (outs : List (String × Except Error α)) : List String :=
  (failures outs).map Prod.fst

/-- The items of the successful fetches, in order. -/
def fetchedItems {α : Type} (outs : List (String × Except Error α)) : List α :=
  outs.filterMap (fun p => match p.2 with
    | .error _ => none
    | .ok a => some a)

/-- A client whose service refuses `/certs/a` and answers anything else with an empty body. -/
def flakyClient : Client :=
  { respond := fun _ r =>
      match r with
      | .get "/certs/a" => .error (.TransportError "down")
      | _ => .ok [],
    log := [] }

/-- A database that stores the link `/certs/a` twice and the link `/certs/b` once, as
certificates and as signatures. -/
def twiceListed : SecureBootDatabase :=
  { SecureBootDatabase.zero with
    certificates := ["/certs/a", "/certs/a", "/certs/b"],
    signatures := ["/certs/a", "/certs/a", "/certs/b"] }

/-- A database with three distinct stored links. -/
def threeLinks : SecureBootDatabase :=
  { SecureBootDatabase.zero with
    certificates := ["/certs/a", "/certs/b", "/certs/c"],
    signatures := ["/certs/a", "/certs/b", "/certs/c"] }

/-- A decoder that keeps the body of the answer as the item. -/
def rawItem : Bytes → Except Error Bytes := fun b => .ok b

/-- The link of a collection of secure boot databases. -/
def databasesLink : String := "/redfish/v1/Systems/1/SecureBoot/SecureBootDatabases"

/-- The link of the one member on the first page of that collection. -/
def memberLink : String := "/redfish/v1/Systems/1/SecureBoot/SecureBootDatabases/PK"

/-- The link of the second page of that collection. -/
def nextPageLink : String := "/redfish/v1/Systems/1/SecureBoot/SecureBootDatabases?page=2"

/-- A client that has sent nothing and whose service answers the GET of the collection with the
body `[1]` and refuses every other request. -/
def pagedClient : Client :=
  { respond := fun _ r =>
      match r with
      | .get "/redfish/v1/Systems/1/SecureBoot/SecureBootDatabases" => .ok [1]
      | _ => .error (.TransportError "down"),
    log := [] }

/-- A page decoder that reads the body `[1]` as the first page of the collection, with the one
member `memberLink` and the next page `nextPageLink`. -/
def pagedPages (body : Bytes) : Except Error Page :=
  if body = [1] then .ok { Members := [memberLink], NextLink := nextPageLink }
  else .error .DecodeError

/-! ## Lemmas on field selection and on storing the members of an object -/

theorem fieldFor_of_keyMatches {ι : Type} (names : List (ι × String)) (hn : WellNamed names)
    (f : ι) (name key : String) (hf : (f, name) ∈ names) (hk : keyMatches key name = true) :
    fieldFor names key = some f := by
  have hfold : foldName key = foldName name := by
    simpa [keyMatches] using hk
  have hinj := List.inj_on_of_nodup_map hn.2
  unfold fieldFor
  cases h1 : names.find? (fun p => p.2 == key) with
  | some p =>
    have hp := List.find?_some h1
    have hmem := List.mem_of_find?_eq_some h1
    have hpk : p.2 = key := by simpa using hp
    have : p = (f, name) := hinj hmem hf (by simp [hpk, hfold])
    simp [this]
  | none =>
    cases h2 : names.find? (fun p => foldName p.2 == foldName key) with
    | some p =>
      have hp := List.find?_some h2
      have hmem := List.mem_of_find?_eq_some h2
      have hpk : foldName p.2 = foldName key := by simpa using hp
      have : p = (f, name) := hinj hmem hf (by simp [hpk, hfold])
      simp [this]
    | none =>
      exfalso
      have := List.find?_eq_none.mp h2 (f, name) hf
      simp [hfold] at this

theorem keyMatches_of_fieldFor {ι : Type} (names : List (ι × String)) (hn : WellNamed names)
    (f : ι) (name key : String) (hf : (f, name) ∈ names) (hk : fieldFor names key = some f) :
    keyMatches key name = true := by
  have hinj := List.inj_on_of_nodup_map hn.1
  unfold fieldFor at hk
  cases h1 : names.find? (fun p => p.2 == key) with
  | some p =>
    rw [h1] at hk
    have hp := List.find?_some h1
    have hmem := List.mem_of_find?_eq_some h1
    have hpk : p.2 = key := by simpa using hp
    have hpf : p.1 = f := by simpa using hk
    have : p = (f, name) := hinj hmem hf (by simp [hpf])
    have hkn : key = name := by rw [← hpk, this]
    simp [keyMatches, hkn]
  | none =>
    rw [h1] at hk
    cases h2 : names.find? (fun p => foldName p.2 == foldName key) with
    | some p =>
      rw [h2] at hk
      have hp := List.find?_some h2
      have hmem := List.mem_of_find?_eq_some h2
      have hpk : foldName p.2 = foldName key := by simpa using hp
      have hpf : p.1 = f := by simpa using hk
      have : p = (f, name) := hinj hmem hf (by simp [hpf])
      rw [this] at hpk
      simp [keyMatches, hpk]
    | none =>
      rw [h2] at hk
      simp at hk

/-- Storing the members of an object, seen from one field: the field keeps its value when no
member selects it, and holds the stored value of the member when exactly one selects it. -/
theorem decMembers_field {ι : Type} [DecidableEq ι] {τ : ι → Type} (names : List (ι × String))
    (hn : WellNamed names) (decField : (i : ι) → JValue → τ i → Except Error (τ i))
    (f : ι) (name : String) (hf : (f, name) ∈ names) :
    ∀ (ms : List (String × JValue)) (t t' : (i : ι) → τ i),
      decMembers names decField ms t = .ok t' →
      (memberValues ms name = [] → t' f = t f) ∧
      (∀ v, memberValues ms name = [v] → decField f v (t f) = .ok (t' f)) := by
  intro ms
  induction ms with
  | nil =>
    intro t t' h
    simp only [decMembers] at h
    cases h
    simp [memberValues]
  | cons kv rest ih =>
    obtain ⟨k, v⟩ := kv
    intro t t' h
    by_cases hk : keyMatches k name = true
    · have hsel := fieldFor_of_keyMatches names hn f name k hf hk
      simp only [decMembers, hsel] at h
      cases hx : decField f v (t f) with
      | error e => rw [hx] at h; cases h
      | ok x =>
        rw [hx] at h
        have ih1 := ih (Function.update t f x) t' h
        constructor
        · intro h0
          simp [memberValues, hk] at h0
        · intro v' hv
          have hv2 : v = v' ∧ memberValues rest name = [] := by
            simpa [memberValues, hk] using hv
          have := ih1.1 hv2.2
          rw [this, ← hv2.1]
          simpa using hx
    · have hmv : memberValues ((k, v) :: rest) name = memberValues rest name := by
        simp [memberValues, hk]
      rw [hmv]
      simp only [decMembers] at h
      cases hsel : fieldFor names k with
      | none =>
        rw [hsel] at h
        exact ih t t' h
      | some g =>
        rw [hsel] at h
        have hgf : f ≠ g := by
          intro hfg
          apply hk
          exact keyMatches_of_fieldFor names hn f name k hf (hfg ▸ hsel)
        simp only at h
        cases hx : decField g v (t g) with
        | error e => rw [hx] at h; cases h
        | ok x =>
          rw [hx] at h
          have ih1 := ih (Function.update t g x) t' h
          simpa [Function.update_noteq hgf] using ih1

theorem tNames_wellNamed : WellNamed tNames := by
  constructor <;> decide

theorem linksNames_wellNamed : WellNamed linksNames := by
  constructor <;> decide

theorem setModeNames_wellNamed : WellNamed setModeNames := by
  constructor <;> decide

theorem actionsNames_wellNamed : WellNamed actionsNames := by
  constructor <;> decide

theorem linkNames_wellNamed : WellNamed linkNames := by
  constructor <;> decide

/-! ## Lemmas on `CoolingUnit.UnmarshalJSON` -/

/-- A successful `CoolingUnit.UnmarshalJSON` on an object stored its members into the zero `t`
and assigned the receiver from it. -/
theorem unmarshalJSON_ok (X : Ext) (parse : Bytes → Option JValue) (old : CoolingUnit X)
    (b : Bytes) (members : List (String × JValue)) (hp : parse b = some (.obj members))
    (hok : (CoolingUnit.UnmarshalJSON X parse old b).2 = none) :
    ∃ t, decMembers tNames (decTField X) members (zeroT X) = .ok t ∧
      (CoolingUnit.UnmarshalJSON X parse old b).1 = CoolingUnit.fromT X t b := by
  unfold CoolingUnit.UnmarshalJSON at hok ⊢
  unfold unmarshalT at hok ⊢
  rw [hp] at hok ⊢
  simp only [decStruct] at hok ⊢
  cases h : decMembers tNames (decTField X) members (zeroT X) with
  | error e => rw [h] at hok; simp at hok
  | ok t => exact ⟨t, rfl, rfl⟩

/-- Storing into an empty slice is storing every element from the zero value. -/
theorem decElemsInto_nil {α : Type} (zero : α) (dec : JValue → α → Except Error α) :
    ∀ (vs : List JValue), decElemsInto zero dec vs [] = decElems zero dec vs := by
  intro vs
  induction vs with
  | nil => rfl
  | cons v vs ih =>
    simp only [decElemsInto, decElems, List.headD_nil, List.tail_nil, ih]

/-- The link that `storedLink` reads for an element is the one `decLink` stores. -/
theorem decLink_of_storedLink (v : JValue) (u : String) (cur l : Link)
    (hu : storedLink v = some u) (hd : decLink v cur = .ok l) : l = u := by
  cases v with
  | null =>
    simp only [storedLink, Option.some.injEq] at hu
    simp only [decLink, decStruct, Except.ok.injEq] at hd
    rw [← hd, ← hu]
  | obj ms =>
    simp only [storedLink] at hu
    unfold decLink at hd
    simp only [decStruct] at hd
    cases hm : @decMembers LinkField _ (fun _ => String) linkNames (fun _ => decString) ms
        (fun _ => "") with
    | error e => rw [hm] at hd; cases hd
    | ok t =>
      rw [hm] at hd
      have hl : t .ODataID = l := by simpa using hd
      have hf := decMembers_field linkNames linkNames_wellNamed (fun _ => decString)
        LinkField.ODataID "@odata.id" (by simp [linkNames]) ms (fun _ => "") t hm
      cases hv : memberValues ms "@odata.id" with
      | nil =>
        rw [hv] at hu
        have h0 := hf.1 hv
        have hu2 : "" = u := by simpa using hu
        rw [← hl, h0, ← hu2]
      | cons x xs =>
        rw [hv] at hu
        cases xs with
        | cons y ys => cases x <;> simp at hu
        | nil =>
          cases x with
          | str s =>
            have hs : s = u := by simpa using hu
            have := hf.2 (.str s) hv
            simp only [decString] at this
            have h2 : s = t .ODataID := by simpa using this
            rw [← hl, ← h2, hs]
          | null =>
            have hs : "" = u := by simpa using hu
            have := hf.2 .null hv
            simp only [decString] at this
            have h2 : "" = t .ODataID := by simpa using this
            rw [← hl, ← h2, hs]
          | _ => simp at hu
  | _ => simp [storedLink] at hu

/-- Storing an array of links gives, in order, the link of each element. -/
theorem decElemsInto_links (elems : List JValue) :
    ∀ (uris ls cur : List String), elems.map storedLink = uris.map some →
      decElemsInto "" decLink elems cur = .ok ls → ls = uris := by
  induction elems with
  | nil =>
    intro uris ls cur hu hd
    simp only [decElemsInto] at hd
    cases uris with
    | nil => cases hd; rfl
    | cons u us => simp at hu
  | cons v vs ih =>
    intro uris ls cur hu hd
    cases uris with
    | nil => simp at hu
    | cons u us =>
      simp only [List.map_cons, List.cons.injEq] at hu
      simp only [decElemsInto] at hd
      cases h1 : decLink v (cur.headD "") with
      | error e => rw [h1] at hd; cases hd
      | ok l =>
        rw [h1] at hd
        cases h2 : decElemsInto "" decLink vs cur.tail with
        | error e => rw [h2] at hd; cases hd
        | ok rest =>
          rw [h2] at hd
          have hl := decLink_of_storedLink v u _ l hu.1 h1
          have hr := ih us rest _ hu.2 h2
          cases hd
          rw [hl, hr]

/-! ## Properties of `CoolingUnit.UnmarshalJSON` -/

/-- The outcome of `CoolingUnit.UnmarshalJSON` depends on the bytes only through the JSON value
they parse to. -/
theorem unmarshalT_of_parse (X : Ext) (parse : Bytes → Option JValue) (b : Bytes) (v : JValue)
    (hp : parse b = some v) : unmarshalT X parse b = decStruct tNames (decTField X) v (zeroT X) := by
  unfold unmarshalT
  rw [hp]

/-- C7 (amended): for every document that `CoolingUnit.UnmarshalJSON` decodes successfully,
each of the following holds on its own.  `AssetTag` is the string the document gives for it,
and is empty when the document has no `AssetTag`.  The stored chassis links are, in document
order, one entry per element of `Links.Chassis`: the `@odata.id` URI of the element, and the
empty string for an element that has none (`null`, or an object without `@odata.id`); they are
empty when the document has no `Links` or `Links` has no `Chassis`.  `ChassisCount` is the
declared `Chassis@odata.count`, whatever the number of links, and 0 when none is declared.  On
the scenario document of section 8 decoding succeeds with `AssetTag = "A1"`, chassis links
`["/redfish/v1/Chassis/1"]` and `ChassisCount = 1`. -/
theorem UnmarshalJSON_chassis_links :
    (∀ (X : Ext) (parse : Bytes → Option JValue) (old : CoolingUnit X) (b : Bytes)
        (members : List (String × JValue)),
        parse b = some (.obj members) →
        (CoolingUnit.UnmarshalJSON X parse old b).2 = none →
        (∀ a, memberValues members "AssetTag" = [.str a] → (CoolingUnit.UnmarshalJSON X parse old b).1.AssetTag = a) ∧
        (memberValues members "AssetTag" = [] → (CoolingUnit.UnmarshalJSON X parse old b).1.AssetTag = "") ∧
        (memberValues members "Links" = [] →
          (CoolingUnit.UnmarshalJSON X parse old b).1.chassis = [] ∧ (CoolingUnit.UnmarshalJSON X parse old b).1.ChassisCount = 0) ∧
        (∀ links, memberValues members "Links" = [.obj links] →
          (∀ elems uris, memberValues links "Chassis" = [.arr elems] →
            elems.map storedLink = uris.map some → (CoolingUnit.UnmarshalJSON X parse old b).1.chassis = uris) ∧
          (memberValues links "Chassis" = [] → (CoolingUnit.UnmarshalJSON X parse old b).1.chassis = []) ∧
          (∀ n, memberValues links "Chassis@odata.count" = [.num n] →
            (CoolingUnit.UnmarshalJSON X parse old b).1.ChassisCount = n) ∧
          (memberValues links "Chassis@odata.count" = [] → (CoolingUnit.UnmarshalJSON X parse old b).1.ChassisCount = 0))) ∧
    (∀ (X : Ext) (parse : Bytes → Option JValue) (old : CoolingUnit X) (b : Bytes),
        parse b = some scenarioDoc →
        (CoolingUnit.UnmarshalJSON X parse old b).2 = none ∧
        (CoolingUnit.UnmarshalJSON X parse old b).1.AssetTag = "A1" ∧
        (CoolingUnit.UnmarshalJSON X parse old b).1.chassis = ["/redfish/v1/Chassis/1"] ∧
        (CoolingUnit.UnmarshalJSON X parse old b).1.ChassisCount = 1) := by
  constructor
  · intro X parse old b members hp hok
    obtain ⟨t, ht, hcu⟩ := unmarshalJSON_ok X parse old b members hp hok
    rw [hcu]
    have hfA := decMembers_field tNames tNames_wellNamed (decTField X) TField.AssetTag
      "AssetTag" (by simp [tNames]) members (zeroT X) t ht
    have hfL := decMembers_field tNames tNames_wellNamed (decTField X) TField.Links
      "Links" (by simp [tNames]) members (zeroT X) t ht
    refine ⟨?_, ?_, ?_, ?_⟩
    · intro a hA
      have := hfA.2 (.str a) hA
      simp only [decTField, decString] at this
      simp only [CoolingUnit.fromT]
      exact (Except.ok.inj this).symm
    · intro hA
      have := hfA.1 hA
      simp only [CoolingUnit.fromT, this]
      rfl
    · intro hL
      have := hfL.1 hL
      simp only [CoolingUnit.fromT, this]
      exact ⟨rfl, rfl⟩
    · intro links hL
      have hL2 : decMembers linksNames decLinksField links zeroLinks = .ok (t .Links) := by
        simpa [decTField, decStruct, zeroT] using hfL.2 (.obj links) hL
      have hfC := decMembers_field linksNames linksNames_wellNamed decLinksField
        LinksField.Chassis "Chassis" (by simp [linksNames]) links zeroLinks (t .Links) hL2
      have hfN := decMembers_field linksNames linksNames_wellNamed decLinksField
        LinksField.ChassisCount "Chassis@odata.count" (by simp [linksNames]) links zeroLinks
        (t .Links) hL2
      refine ⟨?_, ?_, ?_, ?_⟩
      · intro elems uris hC hU
        have hC2 : decElemsInto "" decLink elems (zeroLinks .Chassis)
            = .ok ((t .Links) .Chassis) := by
          simpa [decLinksField, decLinks, decSlice] using hfC.2 (.arr elems) hC
        simpa [CoolingUnit.fromT] using decElemsInto_links elems uris _ _ hU hC2
      · intro hC
        have := hfC.1 hC
        simp only [CoolingUnit.fromT, this]
        rfl
      · intro n hN
        have := hfN.2 (.num n) hN
        simp only [decLinksField, decInt] at this
        simp only [CoolingUnit.fromT]
        split at this
        · exact (Except.ok.inj this).symm
        · cases this
      · intro hN
        have := hfN.1 hN
        simp only [CoolingUnit.fromT, this]
        rfl
  · intro X parse old b hp
    have ht := unmarshalT_of_parse X parse b scenarioDoc hp
    unfold CoolingUnit.UnmarshalJSON
    rw [ht]
    refine ⟨?_, ?_, ?_, ?_⟩ <;> rfl

/-- C6 (amended): when `CoolingUnit.UnmarshalJSON` succeeds on a document without a `Links`
and without an `Actions` member, every exported inline field other than
`AllowedCoolingUnitModes`, `ChassisCount` and `ManagedByCount` holds the value the document
gives for it (a string or a number as given, a struct or a list as the type of the field stores
it), while those three, which the code takes from `Actions` and `Links`, are empty and zero
whatever the document gives under their names. -/
theorem UnmarshalJSON_inline_fields (X : Ext) (parse : Bytes → Option JValue)
    (old : CoolingUnit X) (b : Bytes) (members : List (String × JValue))
    (hp : parse b = some (.obj members))
    (hok : (CoolingUnit.UnmarshalJSON X parse old b).2 = none)
    (hL : memberValues members "Links" = [])
    (hA : memberValues members "Actions" = []) :
    (∀ s, memberValues members "@odata.id" = [.str s] → (CoolingUnit.UnmarshalJSON X parse old b).1.Entity.ODataID = s) ∧
    (∀ s, memberValues members "Id" = [.str s] → (CoolingUnit.UnmarshalJSON X parse old b).1.Entity.ID = s) ∧
    (∀ s, memberValues members "@odata.context" = [.str s] → (CoolingUnit.UnmarshalJSON X parse old b).1.ODataContext = s) ∧
    (∀ s, memberValues members "@odata.etag" = [.str s] → (CoolingUnit.UnmarshalJSON X parse old b).1.ODataEtag = s) ∧
    (∀ s, memberValues members "@odata.type" = [.str s] → (CoolingUnit.UnmarshalJSON X parse old b).1.ODataType = s) ∧
    (∀ s, memberValues members "AssetTag" = [.str s] → (CoolingUnit.UnmarshalJSON X parse old b).1.AssetTag = s) ∧
    (∀ s, memberValues members "Description" = [.str s] → (CoolingUnit.UnmarshalJSON X parse old b).1.Description = s) ∧
    (∀ s, memberValues members "EquipmentType" = [.str s] → (CoolingUnit.UnmarshalJSON X parse old b).1.EquipmentType = s) ∧
    (∀ s, memberValues members "FirmwareVersion" = [.str s] → (CoolingUnit.UnmarshalJSON X parse old b).1.FirmwareVersion = s) ∧
    (∀ s, memberValues members "Manufacturer" = [.str s] → (CoolingUnit.UnmarshalJSON X parse old b).1.Manufacturer = s) ∧
    (∀ s, memberValues members "Model" = [.str s] → (CoolingUnit.UnmarshalJSON X parse old b).1.Model = s) ∧
    (∀ s, memberValues members "PartNumber" = [.str s] → (CoolingUnit.UnmarshalJSON X parse old b).1.PartNumber = s) ∧
    (∀ s, memberValues members "ProductionDate" = [.str s] → (CoolingUnit.UnmarshalJSON X parse old b).1.ProductionDate = s) ∧
    (∀ s, memberValues members "SerialNumber" = [.str s] → (CoolingUnit.UnmarshalJSON X parse old b).1.SerialNumber = s) ∧
    (∀ s, memberValues members "UserLabel" = [.str s] → (CoolingUnit.UnmarshalJSON X parse old b).1.UserLabel = s) ∧
    (∀ s, memberValues members "Version" = [.str s] → (CoolingUnit.UnmarshalJSON X parse old b).1.Version = s) ∧
    (∀ n, memberValues members "CoolingCapacityWatts" = [.num n] →
      (CoolingUnit.UnmarshalJSON X parse old b).1.CoolingCapacityWatts = n) ∧
    (∀ v, memberValues members "Coolant" = [v] →
      X.decCoolant v X.zeroCoolant = .ok (CoolingUnit.UnmarshalJSON X parse old b).1.Coolant) ∧
    (∀ v, memberValues members "Location" = [v] →
      X.decLocation v X.zeroLocation = .ok (CoolingUnit.UnmarshalJSON X parse old b).1.Location) ∧
    (∀ v, memberValues members "Status" = [v] →
      X.decStatus v X.zeroStatus = .ok (CoolingUnit.UnmarshalJSON X parse old b).1.Status) ∧
    (∀ vs, memberValues members "FilterRedundancy" = [.arr vs] →
      decElems X.zeroRedundantGroup X.decRedundantGroup vs = .ok (CoolingUnit.UnmarshalJSON X parse old b).1.FilterRedundancy) ∧
    (∀ vs, memberValues members "PumpRedundancy" = [.arr vs] →
      decElems X.zeroRedundantGroup X.decRedundantGroup vs = .ok (CoolingUnit.UnmarshalJSON X parse old b).1.PumpRedundancy) ∧
    (CoolingUnit.UnmarshalJSON X parse old b).1.AllowedCoolingUnitModes = [] ∧
    (CoolingUnit.UnmarshalJSON X parse old b).1.ChassisCount = 0 ∧
    (CoolingUnit.UnmarshalJSON X parse old b).1.ManagedByCount = 0 := by
  obtain ⟨t, ht, hcu⟩ := unmarshalJSON_ok X parse old b members hp hok
  have F := fun (f : TField) (name : String) (hf : (f, name) ∈ tNames) =>
    decMembers_field tNames tNames_wellNamed (decTField X) f name hf members (zeroT X) t ht
  refine ⟨?_, ?_, ?_, ?_, ?_, ?_, ?_, ?_, ?_, ?_, ?_, ?_, ?_, ?_, ?_, ?_, ?_, ?_, ?_, ?_, ?_, ?_, ?_, ?_, ?_⟩
  · intro s h
    have := (F TField.ODataID "@odata.id" (by simp [tNames])).2 (.str s) h
    simp only [decTField, decString] at this
    simp only [hcu, CoolingUnit.fromT]
    exact (Except.ok.inj this).symm
  · intro s h
    have := (F TField.ID "Id" (by simp [tNames])).2 (.str s) h
    simp only [decTField, decString] at this
    simp only [hcu, CoolingUnit.fromT]
    exact (Except.ok.inj this).symm
  · intro s h
    have := (F TField.ODataContext "@odata.context" (by simp [tNames])).2 (.str s) h
    simp only [decTField, decString] at this
    simp only [hcu, CoolingUnit.fromT]
    exact (Except.ok.inj this).symm
  · intro s h
    have := (F TField.ODataEtag "@odata.etag" (by simp [tNames])).2 (.str s) h
    simp only [decTField, decString] at this
    simp only [hcu, CoolingUnit.fromT]
    exact (Except.ok.inj this).symm
  · intro s h
    have := (F TField.ODataType "@odata.type" (by simp [tNames])).2 (.str s) h
    simp only [decTField, decString] at this
    simp only [hcu, CoolingUnit.fromT]
    exact (Except.ok.inj this).symm
  · intro s h
    have := (F TField.AssetTag "AssetTag" (by simp [tNames])).2 (.str s) h
    simp only [decTField, decString] at this
    simp only [hcu, CoolingUnit.fromT]
    exact (Except.ok.inj this).symm
  · intro s h
    have := (F TField.Description "Description" (by simp [tNames])).2 (.str s) h
    simp only [decTField, decString] at this
    simp only [hcu, CoolingUnit.fromT]
    exact (Except.ok.inj this).symm
  · intro s h
    have := (F TField.EquipmentType "EquipmentType" (by simp [tNames])).2 (.str s) h
    simp only [decTField, decString] at this
    simp only [hcu, CoolingUnit.fromT]
    exact (Except.ok.inj this).symm
  · intro s h
    have := (F TField.FirmwareVersion "FirmwareVersion" (by simp [tNames])).2 (.str s) h
    simp only [decTField, decString] at this
    simp only [hcu, CoolingUnit.fromT]
    exact (Except.ok.inj this).symm
  · intro s h
    have := (F TField.Manufacturer "Manufacturer" (by simp [tNames])).2 (.str s) h
    simp only [decTField, decString] at this
    simp only [hcu, CoolingUnit.fromT]
    exact (Except.ok.inj this).symm
  · intro s h
    have := (F TField.Model "Model" (by simp [tNames])).2 (.str s) h
    simp only [decTField, decString] at this
    simp only [hcu, CoolingUnit.fromT]
    exact (Except.ok.inj this).symm
  · intro s h
    have := (F TField.PartNumber "PartNumber" (by simp [tNames])).2 (.str s) h
    simp only [decTField, decString] at this
    simp only [hcu, CoolingUnit.fromT]
    exact (Except.ok.inj this).symm
  · intro s h
    have := (F TField.ProductionDate "ProductionDate" (by simp [tNames])).2 (.str s) h
    simp only [decTField, decString] at this
    simp only [hcu, CoolingUnit.fromT]
    exact (Except.ok.inj this).symm
  · intro s h
    have := (F TField.SerialNumber "SerialNumber" (by simp [tNames])).2 (.str s) h
    simp only [decTField, decString] at this
    simp only [hcu, CoolingUnit.fromT]
    exact (Except.ok.inj this).symm
  · intro s h
    have := (F TField.UserLabel "UserLabel" (by simp [tNames])).2 (.str s) h
    simp only [decTField, decString] at this
    simp only [hcu, CoolingUnit.fromT]
    exact (Except.ok.inj this).symm
  · intro s h
    have := (F TField.Version "Version" (by simp [tNames])).2 (.str s) h
    simp only [decTField, decString] at this
    simp only [hcu, CoolingUnit.fromT]
    exact (Except.ok.inj this).symm
  · intro n h
    have := (F TField.CoolingCapacityWatts "CoolingCapacityWatts" (by simp [tNames])).2 (.num n) h
    simp only [decTField, decInt] at this
    simp only [hcu, CoolingUnit.fromT]
    split at this
    · exact (Except.ok.inj this).symm
    · cases this
  · intro v h
    have := (F TField.Coolant "Coolant" (by simp [tNames])).2 v h
    simp only [hcu, CoolingUnit.fromT]
    exact this
  · intro v h
    have := (F TField.Location "Location" (by simp [tNames])).2 v h
    simp only [hcu, CoolingUnit.fromT]
    exact this
  · intro v h
    have := (F TField.Status "Status" (by simp [tNames])).2 v h
    simp only [hcu, CoolingUnit.fromT]
    exact this
  · intro vs h
    have := (F TField.FilterRedundancy "FilterRedundancy" (by simp [tNames])).2 (.arr vs) h
    simp only [hcu, CoolingUnit.fromT]
    rw [← decElemsInto_nil]
    exact this
  · intro vs h
    have := (F TField.PumpRedundancy "PumpRedundancy" (by simp [tNames])).2 (.arr vs) h
    simp only [hcu, CoolingUnit.fromT]
    rw [← decElemsInto_nil]
    exact this
  · have := (F TField.Actions "Actions" (by simp [tNames])).1 hA
    simp only [hcu, CoolingUnit.fromT, this]
    rfl
  · have := (F TField.Links "Links" (by simp [tNames])).1 hL
    simp only [hcu, CoolingUnit.fromT, this]
    rfl
  · have := (F TField.Links "Links" (by simp [tNames])).1 hL
    simp only [hcu, CoolingUnit.fromT, this]
    rfl

/-- C6, witness: the theorem at the document `inlineMembers`. -/
theorem UnmarshalJSON_inline_fields_witness :
    (CoolingUnit.UnmarshalJSON unitExt (fun _ => some (.obj inlineMembers))
      (CoolingUnit.zero unitExt) []).1.AssetTag = "A1" ∧
    (CoolingUnit.UnmarshalJSON unitExt (fun _ => some (.obj inlineMembers))
      (CoolingUnit.zero unitExt) []).1.ChassisCount = 0 :=
  have h := UnmarshalJSON_inline_fields unitExt (fun _ => some (.obj inlineMembers))
    (CoolingUnit.zero unitExt) [] inlineMembers rfl (by decide) rfl rfl
  ⟨h.2.2.2.2.2.1 "A1" rfl, h.2.2.2.2.2.2.2.2.2.2.2.2.2.2.2.2.2.2.2.2.2.2.2.1⟩

/-- C6, counterexample: the document `inlineMembers` has no `Links` and no `Actions` member and
gives `AllowedCoolingUnitModes` the value `["Enabled"]`, `ChassisCount` the value 2 and
`ManagedByCount` the value 1; decoding succeeds and the three fields read `[]`, 0 and 0. -/
theorem UnmarshalJSON_inline_fields_counterexample :
    memberValues inlineMembers "Links" = [] ∧
    memberValues inlineMembers "Actions" = [] ∧
    memberValues inlineMembers "AllowedCoolingUnitModes" = [.arr [.str "Enabled"]] ∧
    memberValues inlineMembers "ChassisCount" = [.num 2] ∧
    memberValues inlineMembers "ManagedByCount" = [.num 1] ∧
    (CoolingUnit.UnmarshalJSON unitExt (fun _ => some (.obj inlineMembers))
      (CoolingUnit.zero unitExt) []).2 = none ∧
    (CoolingUnit.UnmarshalJSON unitExt (fun _ => some (.obj inlineMembers))
      (CoolingUnit.zero unitExt) []).1.AllowedCoolingUnitModes = [] ∧
    (CoolingUnit.UnmarshalJSON unitExt (fun _ => some (.obj inlineMembers))
      (CoolingUnit.zero unitExt) []).1.ChassisCount = 0 ∧
    (CoolingUnit.UnmarshalJSON unitExt (fun _ => some (.obj inlineMembers))
      (CoolingUnit.zero unitExt) []).1.ManagedByCount = 0 :=
  ⟨rfl, rfl, rfl, rfl, rfl, by decide, by decide, by decide, by decide⟩

/-- C7, witness: the theorem at the document `gapDoc`, whose `Links.Chassis` has three
elements, one of them a link object, and whose declared count is 5. -/
theorem UnmarshalJSON_chassis_links_witness :
    (CoolingUnit.UnmarshalJSON unitExt (fun _ => some gapDoc)
      (CoolingUnit.zero unitExt) []).1.chassis
      = ["/redfish/v1/Chassis/1", "", ""] ∧
    (CoolingUnit.UnmarshalJSON unitExt (fun _ => some gapDoc)
      (CoolingUnit.zero unitExt) []).1.ChassisCount = 5 :=
  have h := (UnmarshalJSON_chassis_links.1 unitExt (fun _ => some gapDoc)
    (CoolingUnit.zero unitExt) []
    [("AssetTag", .str "A1"),
     ("Links", .obj [("Chassis", .arr gapElems), ("Chassis@odata.count", .num 5)])]
    rfl (by decide)).2.2.2
    [("Chassis", .arr gapElems), ("Chassis@odata.count", .num 5)] rfl
  ⟨h.1 gapElems ["/redfish/v1/Chassis/1", "", ""] rfl rfl, h.2.2.1 5 rfl⟩

/-- C7, counterexample: the document `gapDoc` decodes successfully; the only `@odata.id` URI
among the elements of its `Links.Chassis` is `/redfish/v1/Chassis/1`, and three chassis links
are stored, two of them empty. -/
theorem UnmarshalJSON_chassis_links_counterexample :
    (CoolingUnit.UnmarshalJSON unitExt (fun _ => some gapDoc)
      (CoolingUnit.zero unitExt) []).2 = none ∧
    gapElems.filterMap linkURI = ["/redfish/v1/Chassis/1"] ∧
    (CoolingUnit.UnmarshalJSON unitExt (fun _ => some gapDoc)
      (CoolingUnit.zero unitExt) []).1.chassis
      = ["/redfish/v1/Chassis/1", "", ""] :=
  ⟨by decide, by decide, by decide⟩

/-! ## Properties of the methods of `CoolingUnit` -/

/-- C8: after a successful `CoolingUnit.UnmarshalJSON` of `b` the retained raw data is `b`; a
later successful decode of `b'` replaces it by `b'`, a failed one leaves the resource as it
was; `SetMode`, `Update` and the eight link accessors return the receiver with the raw data
it had. -/
theorem rawData_retained :
    (∀ (X : Ext) (parse : Bytes → Option JValue) (old : CoolingUnit X) (b : Bytes),
        (CoolingUnit.UnmarshalJSON X parse old b).2 = none →
        (CoolingUnit.UnmarshalJSON X parse old b).1.rawData = b) ∧
    (∀ (X : Ext) (parse : Bytes → Option JValue) (old : CoolingUnit X) (b b' : Bytes),
        (CoolingUnit.UnmarshalJSON X parse old b).2 = none →
        (CoolingUnit.UnmarshalJSON X parse (CoolingUnit.UnmarshalJSON X parse old b).1 b').2
          = none →
        (CoolingUnit.UnmarshalJSON X parse (CoolingUnit.UnmarshalJSON X parse old b).1 b').1.rawData
          = b') ∧
    (∀ (X : Ext) (parse : Bytes → Option JValue) (cu : CoolingUnit X) (b' : Bytes),
        (CoolingUnit.UnmarshalJSON X parse cu b').2 ≠ none →
        (CoolingUnit.UnmarshalJSON X parse cu b').1 = cu) ∧
    (∀ (X : Ext) (cu : CoolingUnit X) (mode : CoolingUnitMode) (c : Client),
        (CoolingUnit.SetMode X cu mode c).1.rawData = cu.rawData) ∧
    (∀ (X : Ext) (parse : Bytes → Option JValue) (cu : CoolingUnit X) (c : Client),
        (CoolingUnit.Update X parse cu c).1.rawData = cu.rawData) ∧
    (∀ (X : Ext) (α : Type) (decode : Bytes → Except Error α) (cu : CoolingUnit X)
        (c : Client),
        (CoolingUnit.EnvironmentMetrics X decode cu c).1.rawData = cu.rawData ∧
        (CoolingUnit.LeakDetection X decode cu c).1.rawData = cu.rawData) ∧
    (∀ (X : Ext) (α : Type) (decodePage : Bytes → Except Error Page)
        (decode : Bytes → Except Error α) (fuel : Nat) (cu : CoolingUnit X) (c : Client),
        (CoolingUnit.Assembly X decodePage decode fuel cu c).1.rawData = cu.rawData ∧
        (CoolingUnit.Filters X decodePage decode fuel cu c).1.rawData = cu.rawData ∧
        (CoolingUnit.PrimaryCoolantConnectors X decodePage decode fuel cu c).1.rawData
          = cu.rawData ∧
        (CoolingUnit.Pumps X decodePage decode fuel cu c).1.rawData = cu.rawData ∧
        (CoolingUnit.Reservoirs X decodePage decode fuel cu c).1.rawData = cu.rawData ∧
        (CoolingUnit.SecondaryCoolantConnectors X decodePage decode fuel cu c).1.rawData
          = cu.rawData) := by
  have key : ∀ (X : Ext) (parse : Bytes → Option JValue) (old : CoolingUnit X) (b : Bytes),
      (CoolingUnit.UnmarshalJSON X parse old b).2 = none →
      (CoolingUnit.UnmarshalJSON X parse old b).1.rawData = b := by
    intro X parse old b h
    unfold CoolingUnit.UnmarshalJSON at h ⊢
    cases ht : unmarshalT X parse b with
    | error e => rw [ht] at h; simp at h
    | ok t => rfl
  refine ⟨key, ?_, ?_, ?_, ?_, ?_, ?_⟩
  · intro X parse old b b' _ h2
    exact key X parse _ b' h2
  · intro X parse cu b' h
    unfold CoolingUnit.UnmarshalJSON at h ⊢
    cases ht : unmarshalT X parse b' with
    | error e => rfl
    | ok t => rw [ht] at h; simp at h
  · intro X cu mode c
    rfl
  · intro X parse cu c
    rfl
  · intro X α decode cu c
    constructor
    · unfold CoolingUnit.EnvironmentMetrics
      split
      · rfl
      · split <;> rfl
    · unfold CoolingUnit.LeakDetection
      split
      · rfl
      · split <;> rfl
  · intro X α decodePage decode fuel cu c
    exact ⟨rfl, rfl, rfl, rfl, rfl, rfl⟩

/-- C8, witness: the theorem at the scenario document, decoded into the zero resource. -/
theorem rawData_retained_witness :
    (CoolingUnit.UnmarshalJSON unitExt (fun _ => some scenarioDoc)
      (CoolingUnit.zero unitExt) [123, 125]).1.rawData = [123, 125] :=
  rawData_retained.1 unitExt (fun _ => some scenarioDoc) (CoolingUnit.zero unitExt) [123, 125]
    (by decide)

/-- C5: `CoolingUnit.SetMode` on a resource whose action target is empty fails with
`UnsupportedActionError` and leaves the client, hence the log of the requests sent, as it was,
for every mode; the target is empty when the decoded document has no `Actions` member. -/
theorem SetMode_empty_target :
    (∀ (X : Ext) (cu : CoolingUnit X) (mode : CoolingUnitMode) (c : Client),
        cu.setMode = "" →
        (CoolingUnit.SetMode X cu mode c).2.1 = some Error.UnsupportedActionError ∧
        (CoolingUnit.SetMode X cu mode c).2.2 = c) ∧
    (∀ (X : Ext) (parse : Bytes → Option JValue) (old : CoolingUnit X) (b : Bytes)
        (members : List (String × JValue)),
        parse b = some (.obj members) →
        (CoolingUnit.UnmarshalJSON X parse old b).2 = none →
        memberValues members "Actions" = [] →
        (CoolingUnit.UnmarshalJSON X parse old b).1.setMode = "") := by
  constructor
  · intro X cu mode c h
    simp [CoolingUnit.SetMode, Entity.Post, h]
  · intro X parse old b members hp hok hA
    obtain ⟨t, ht, hcu⟩ := unmarshalJSON_ok X parse old b members hp hok
    have := (decMembers_field tNames tNames_wellNamed (decTField X) TField.Actions "Actions"
      (by simp [tNames]) members (zeroT X) t ht).1 hA
    simp only [hcu, CoolingUnit.fromT, this]
    rfl

/-- C5, witness: the theorem at the zero resource, whose action target is empty. -/
theorem SetMode_empty_target_witness :
    (CoolingUnit.SetMode unitExt (CoolingUnit.zero unitExt) "Enabled" quietClient).2.1
        = some Error.UnsupportedActionError ∧
    (CoolingUnit.SetMode unitExt (CoolingUnit.zero unitExt) "Enabled" quietClient).2.2
        = quietClient :=
  SetMode_empty_target.1 unitExt (CoolingUnit.zero unitExt) "Enabled" quietClient rfl

/-- C4: with an empty stored link `CoolingUnit.EnvironmentMetrics` and
`CoolingUnit.LeakDetection` return `(nil, nil)` and the client as it was, and
`ListReferencedSecureBootDatabases` on the empty link returns, whatever the bound on the
number of pages, the empty sequence, no error and the client as it was. -/
theorem empty_link_resolves_to_nothing :
    (∀ (X : Ext) (α : Type) (decode : Bytes → Except Error α) (cu : CoolingUnit X)
        (c : Client), cu.environmentMetrics = "" →
        (CoolingUnit.EnvironmentMetrics X decode cu c).2 = ((none, none), c)) ∧
    (∀ (X : Ext) (α : Type) (decode : Bytes → Except Error α) (cu : CoolingUnit X)
        (c : Client), cu.leakDetection = "" →
        (CoolingUnit.LeakDetection X decode cu c).2 = ((none, none), c)) ∧
    (∀ (parse : Bytes → Option JValue) (decodePage : Bytes → Except Error Page) (fuel : Nat)
        (c : Client),
        ∃ r, ListReferencedSecureBootDatabases parse decodePage fuel c "" = some r ∧
          r.result = [] ∧ r.err = none ∧ r.client = c) := by
  refine ⟨?_, ?_, ?_⟩
  · intro X α decode cu c h
    simp [CoolingUnit.EnvironmentMetrics, h]
  · intro X α decode cu c h
    simp [CoolingUnit.LeakDetection, h]
  · intro parse decodePage fuel c
    refine ⟨{ result := [], err := none, client := c }, ?_, rfl, rfl, rfl⟩
    simp [ListReferencedSecureBootDatabases]

/-- C4, witness: the theorem at the zero resource, whose links are empty. -/
theorem empty_link_resolves_to_nothing_witness :
    (CoolingUnit.EnvironmentMetrics unitExt (fun b => Except.ok b) (CoolingUnit.zero unitExt)
      downClient).2 = ((none, none), downClient) :=
  empty_link_resolves_to_nothing.1 unitExt Bytes (fun b => Except.ok b)
    (CoolingUnit.zero unitExt) downClient rfl

/-- A patch is sent whatever the service answers: the client afterwards has it logged. -/
theorem Patch_client (c : Client) (uri : String) (payload : JValue) :
    (Entity.Patch c uri payload).2
      = { respond := c.respond, log := c.log ++ [Request.patch uri payload] } := by
  unfold Entity.Patch Client.send
  cases c.respond c.log (Request.patch uri payload) <;> rfl

/-- The patch body computed by the engine for the whitelist of `CoolingUnit.Update`. -/
theorem update_payload (X : Ext) (cu0 cu : CoolingUnit X) :
    ["AssetTag", "UserLabel"].filterMap (changedField (CoolingUnit.fieldValue X) cu0 cu)
      = expectedPatch X cu0 cu := by
  by_cases h1 : cu.AssetTag = cu0.AssetTag <;> by_cases h2 : cu.UserLabel = cu0.UserLabel <;>
    simp [changedField, CoolingUnit.fieldValue, expectedPatch, JValue.beq, h1, h2]

/-- C1: for a resource `cu` whose raw data are the bytes `b` of a document that decodes to
`cu0`, `CoolingUnit.Update` sends nothing when neither `AssetTag` nor `UserLabel` differs from
`cu0`, and otherwise sends exactly one patch, to the self-URI, whose body is exactly the
differing fields among `AssetTag` and `UserLabel` with their current values; every name in
that body is `AssetTag` or `UserLabel`, whatever else was changed; and changing `AssetTag`
from "A1" to "A2" gives the body `{"AssetTag":"A2"}`. -/
theorem Update_patch_body :
    (∀ (X : Ext) (parse : Bytes → Option JValue) (b : Bytes) (cu0 cu : CoolingUnit X)
        (c : Client),
        CoolingUnit.decode X parse b = .ok cu0 → cu.rawData = b →
        (CoolingUnit.Update X parse cu c).2.2.log
          = c.log ++ (if (expectedPatch X cu0 cu).isEmpty then []
              else [Request.patch cu.Entity.ODataID (.obj (expectedPatch X cu0 cu))]) ∧
        (∀ kv ∈ expectedPatch X cu0 cu, kv.1 = "AssetTag" ∨ kv.1 = "UserLabel") ∧
        (∀ kv ∈ expectedPatch X cu0 cu, kv.1 ≠ "Description" ∧ kv.1 ≠ "Manufacturer")) ∧
    (∀ (X : Ext) (parse : Bytes → Option JValue) (b : Bytes) (cu0 cu : CoolingUnit X)
        (c : Client),
        CoolingUnit.decode X parse b = .ok cu0 → cu.rawData = b →
        cu0.AssetTag = "A1" → cu.AssetTag = "A2" → cu.UserLabel = cu0.UserLabel →
        (CoolingUnit.Update X parse cu c).2.2.log
          = c.log ++ [Request.patch cu.Entity.ODataID (.obj [("AssetTag", .str "A2")])]) := by
  have main : ∀ (X : Ext) (parse : Bytes → Option JValue) (b : Bytes) (cu0 cu : CoolingUnit X)
      (c : Client), CoolingUnit.decode X parse b = .ok cu0 → cu.rawData = b →
      (CoolingUnit.Update X parse cu c).2.2.log
        = c.log ++ (if (expectedPatch X cu0 cu).isEmpty then []
            else [Request.patch cu.Entity.ODataID (.obj (expectedPatch X cu0 cu))]) := by
    intro X parse b cu0 cu c hdec hraw
    simp only [CoolingUnit.Update, Entity.UpdateFromRawData, hraw, hdec, update_payload]
    by_cases he : (expectedPatch X cu0 cu).isEmpty = true
    · simp [he]
    · simp only [he, Bool.false_eq_true, if_false]
      rw [Patch_client]
  constructor
  · intro X parse b cu0 cu c hdec hraw
    refine ⟨main X parse b cu0 cu c hdec hraw, ?_, ?_⟩
    · intro kv hkv
      unfold expectedPatch at hkv
      by_cases h1 : cu.AssetTag = cu0.AssetTag <;> by_cases h2 : cu.UserLabel = cu0.UserLabel <;>
        simp [h1, h2] at hkv <;> aesop
    · intro kv hkv
      unfold expectedPatch at hkv
      by_cases h1 : cu.AssetTag = cu0.AssetTag <;> by_cases h2 : cu.UserLabel = cu0.UserLabel <;>
        simp [h1, h2] at hkv <;> aesop
  · intro X parse b cu0 cu c hdec hraw h0 h1 h2
    rw [main X parse b cu0 cu c hdec hraw]
    simp [expectedPatch, h0, h1, h2]

/-- C1, witness: the theorem at `editedUnit`, in which `AssetTag` went from "A1" to "A2" and
two fields outside the whitelist were changed as well. -/
theorem Update_patch_body_witness :
    (CoolingUnit.Update unitExt (fun _ => some servedDoc) editedUnit quietClient).2.2.log
      = quietClient.log ++ [Request.patch editedUnit.Entity.ODataID
          (.obj [("AssetTag", .str "A2")])] :=
  Update_patch_body.2 unitExt (fun _ => some servedDoc) scenarioBytes servedUnit editedUnit
    quietClient rfl rfl rfl rfl rfl

/-! ## Lemmas on the failure map and on the fetch loop -/

/-- A resource fetch sends one GET, whatever the service answers and whatever decoding
gives. -/
theorem GetObject_client {α : Type} (decode : Bytes → Except Error α) (c : Client)
    (u : String) :
    (GetObject decode c u).2 = { respond := c.respond, log := c.log ++ [Request.get u] } := by
  unfold GetObject Client.Get Client.send
  cases c.respond c.log (Request.get u) with
  | error e => rfl
  | ok body =>
    simp only
    cases decode body <;> rfl

theorem mem_keys_set (m : FailureMap) (k : String) (v : Error) (u : String) :
    u ∈ (FailureMap.set m k v).map Prod.fst ↔ u ∈ m.map Prod.fst ∨ u = k := by
  unfold FailureMap.set
  simp only [List.map_append, List.mem_append, List.mem_map, List.mem_filter, List.map_cons,
    List.map_nil, List.mem_singleton, Prod.exists, exists_and_right, exists_eq_right,
    Bool.not_eq_true', beq_eq_false_iff_ne, ne_eq]
  constructor
  · rintro (⟨he, _⟩ | h)
    · exact Or.inl he
    · exact Or.inr h
  · rintro (he | h)
    · by_cases huk : u = k
      · exact Or.inr huk
      · exact Or.inl ⟨he, huk⟩
    · exact Or.inr h

theorem nodup_keys_set (m : FailureMap) (k : String) (v : Error)
    (h : (m.map Prod.fst).Nodup) : ((FailureMap.set m k v).map Prod.fst).Nodup := by
  unfold FailureMap.set
  rw [List.map_append, List.nodup_append]
  refine ⟨?_, by simp, ?_⟩
  · exact (List.Nodup.sublist (List.Sublist.map _ (List.filter_sublist _)) h)
  · intro a ha hb
    simp only [List.map_cons, List.map_nil, List.mem_singleton] at hb
    simp only [List.mem_map, List.mem_filter, Prod.exists, exists_and_right, exists_eq_right,
      Bool.not_eq_true', beq_eq_false_iff_ne, ne_eq] at ha
    exact ha.2 hb

theorem mem_keys_setAll (fs : List (String × Error)) :
    ∀ (m : FailureMap) (u : String),
      u ∈ (fs.foldl (fun m p => FailureMap.set m p.1 p.2) m).map Prod.fst ↔
        u ∈ m.map Prod.fst ∨ u ∈ fs.map Prod.fst := by
  induction fs with
  | nil => intro m u; simp
  | cons p ps ih =>
    intro m u
    rw [List.foldl_cons, ih, mem_keys_set]
    simp only [List.map_cons, List.mem_cons]
    tauto

theorem nodup_keys_setAll (fs : List (String × Error)) :
    ∀ (m : FailureMap), (m.map Prod.fst).Nodup →
      ((fs.foldl (fun m p => FailureMap.set m p.1 p.2) m).map Prod.fst).Nodup := by
  induction fs with
  | nil => intro m h; simpa using h
  | cons p ps ih =>
    intro m h
    rw [List.foldl_cons]
    exact ih _ (nodup_keys_set m p.1 p.2 h)

/-- The map built from the empty map by a run of assignments has one entry per distinct key
assigned. -/
theorem length_setAll (fs : List (String × Error)) :
    (fs.foldl (fun m p => FailureMap.set m p.1 p.2) ([] : FailureMap)).length
      = (fs.map Prod.fst).dedup.length := by
  have hn := nodup_keys_setAll fs [] (by simp)
  have hm := mem_keys_setAll fs []
  rw [← List.length_map (fs.foldl (fun m p => FailureMap.set m p.1 p.2) ([] : FailureMap))
    Prod.fst]
  rw [← List.toFinset_card_of_nodup hn, ← List.card_toFinset]
  congr 1
  ext u
  simp only [List.mem_toFinset]
  rw [hm]
  simp

/-- The loop of `Certificates` and `Signatures`: the result grows by the fetched items in
order and the failure map by one assignment per failed fetch. -/
theorem foldl_fetchInto {α : Type} (g : Client → String → Except Error α × Client) :
    ∀ (links : List String) (res : List α) (ce : CollectionError) (c : Client),
      (links.foldl (fetchInto g) (res, ce, c)).1
          = res ++ fetchedItems (fetchOutcomes g c links) ∧
      (links.foldl (fetchInto g) (res, ce, c)).2.1.Failures
          = (failures (fetchOutcomes g c links)).foldl (fun m p => FailureMap.set m p.1 p.2)
              ce.Failures := by
  intro links
  induction links with
  | nil => intro res ce c; simp [fetchOutcomes, fetchedItems, failures]
  | cons u us ih =>
    intro res ce c
    rw [List.foldl_cons]
    cases hg : g c u with
    | mk out c1 =>
      cases out with
      | error e =>
        have hstep : fetchInto g (res, ce, c) u
            = (res, { Failures := ce.Failures.set u e }, c1) := by
          simp [fetchInto, hg]
        rw [hstep]
        have := ih res { Failures := ce.Failures.set u e } c1
        simp only [fetchOutcomes, hg, fetchedItems, failures, List.filterMap_cons,
          List.foldl_cons] at this ⊢
        exact this
      | ok a =>
        have hstep : fetchInto g (res, ce, c) u = (res ++ [a], ce, c1) := by
          simp [fetchInto, hg]
        rw [hstep]
        have := ih (res ++ [a]) ce c1
        simp only [fetchOutcomes, hg, fetchedItems, failures, List.filterMap_cons,
          List.foldl_cons, List.append_assoc, List.singleton_append] at this ⊢
        exact this

/-- Every fetch either fails or gives an item. -/
theorem outcomes_count {α : Type} (outs : List (String × Except Error α)) :
    (failedURIs outs).length + (fetchedItems outs).length = outs.length := by
  induction outs with
  | nil => simp [failedURIs, failures, fetchedItems]
  | cons p ps ih =>
    obtain ⟨u, o⟩ := p
    cases o with
    | error e =>
      simp only [failedURIs, failures, fetchedItems, List.filterMap_cons, List.map_cons,
        List.length_cons] at ih ⊢
      omega
    | ok a =>
      simp only [failedURIs, failures, fetchedItems, List.filterMap_cons, List.map_cons,
        List.length_cons] at ih ⊢
      omega

theorem fetchOutcomes_length {α : Type} (g : Client → String → Except Error α × Client) :
    ∀ (links : List String) (c : Client), (fetchOutcomes g c links).length = links.length := by
  intro links
  induction links with
  | nil => intro c; rfl
  | cons u us ih => intro c; simp [fetchOutcomes, ih]

theorem fetchOutcomes_links {α : Type} (g : Client → String → Except Error α × Client) :
    ∀ (links : List String) (c : Client), (fetchOutcomes g c links).map Prod.fst = links := by
  intro links
  induction links with
  | nil => intro c; rfl
  | cons u us ih => intro c; simp [fetchOutcomes, ih]

/-- A run of assignments leaves the map empty only when there is no assignment. -/
theorem setAll_isEmpty (fs : List (String × Error)) :
    (fs.foldl (fun m p => FailureMap.set m p.1 p.2) ([] : FailureMap)).isEmpty = true
      ↔ fs = [] := by
  constructor
  · intro h
    cases fs with
    | nil => rfl
    | cons p ps =>
      exfalso
      have hm := (mem_keys_setAll (p :: ps) [] p.1).2 (Or.inr (by simp))
      rw [List.isEmpty_iff] at h
      rw [h] at hm
      simp at hm
  · intro h
    rw [h]
    rfl

/-- The outcome of the fetch at position `i` is the answer to a GET of the link at position
`i` sent after the GETs of the links before it. -/
theorem fetchOutcomes_at {α : Type} (decode : Bytes → Except Error α) :
    ∀ (links : List String) (c : Client) (i : Nat) (u : String), links[i]? = some u →
      (fetchOutcomes (GetObject decode) c links)[i]?
        = some (u, (GetObject decode
            { respond := c.respond, log := c.log ++ (links.take i).map Request.get } u).1) := by
  intro links
  induction links with
  | nil => intro c i u h; simp at h
  | cons v vs ih =>
    intro c i u h
    cases i with
    | zero =>
      simp only [List.getElem?_cons_zero, Option.some.injEq] at h
      subst h
      simp [fetchOutcomes]
    | succ j =>
      simp only [List.getElem?_cons_succ] at h
      simp only [fetchOutcomes, List.getElem?_cons_succ]
      rw [ih _ j u h, GetObject_client]
      simp

/-- The loop of `Certificates` and `Signatures` makes one fetch per stored link, in stored
order, each on the client left by the fetch before it. -/
theorem foldl_fetchInto_client {α : Type} (g : Client → String → Except Error α × Client) :
    ∀ (links : List String) (res : List α) (ce : CollectionError) (c : Client),
      (links.foldl (fetchInto g) (res, ce, c)).2.2 = links.foldl (fun c u => (g c u).2) c := by
  intro links
  induction links with
  | nil => intro res ce c; rfl
  | cons u us ih =>
    intro res ce c
    rw [List.foldl_cons, List.foldl_cons]
    cases hg : g c u with
    | mk out c1 =>
      cases out with
      | error e =>
        have hstep : fetchInto g (res, ce, c) u
            = (res, { Failures := ce.Failures.set u e }, c1) := by
          simp [fetchInto, hg]
        rw [hstep, ih]
      | ok a =>
        have hstep : fetchInto g (res, ce, c) u = (res ++ [a], ce, c1) := by
          simp [fetchInto, hg]
        rw [hstep, ih]

/-- A run of resource fetches sends one GET per link, in order. -/
theorem foldl_GetObject_client {α : Type} (decode : Bytes → Except Error α) :
    ∀ (links : List String) (c : Client),
      links.foldl (fun c u => (GetObject decode c u).2) c
        = { respond := c.respond, log := c.log ++ links.map Request.get } := by
  intro links
  induction links with
  | nil => intro c; simp
  | cons u us ih =>
    intro c
    rw [List.foldl_cons, ih, GetObject_client]
    simp

/-- What the loop of `Certificates` and `Signatures` followed by the test of
`collectionError.Empty()` returns, in terms of the outcomes of the fetches. -/
theorem loop_result {α β : Type} (g : Client → String → Except Error α × Client) (x : β)
    (links : List String) (c : Client)
    (r : β × (List α × Option CollectionError) × Client)
    (hr : r = (if (links.foldl (fetchInto g) ([], NewCollectionError, c)).2.1.Empty
               then (x, ((links.foldl (fetchInto g) ([], NewCollectionError, c)).1, none), (links.foldl (fetchInto g) ([], NewCollectionError, c)).2.2)
               else (x, ((links.foldl (fetchInto g) ([], NewCollectionError, c)).1, some (links.foldl (fetchInto g) ([], NewCollectionError, c)).2.1), (links.foldl (fetchInto g) ([], NewCollectionError, c)).2.2))) :
    r.1 = x ∧
    r.2.1.1 = fetchedItems (fetchOutcomes g c links) ∧
    r.2.2 = links.foldl (fun c u => (g c u).2) c ∧
    (failedURIs (fetchOutcomes g c links) = [] → r.2.1.2 = none) ∧
    (failedURIs (fetchOutcomes g c links) ≠ [] →
      ∃ ce, r.2.1.2 = some ce ∧ ce.Empty = false ∧
        ce.Failures = (failures (fetchOutcomes g c links)).foldl
          (fun m p => FailureMap.set m p.1 p.2) []) := by
  have h12 := foldl_fetchInto g links [] NewCollectionError c
  have h3 := foldl_fetchInto_client g links [] NewCollectionError c
  have hF : (links.foldl (fetchInto g) ([], NewCollectionError, c)).2.1.Failures
      = (failures (fetchOutcomes g c links)).foldl
          (fun m p => FailureMap.set m p.1 p.2) [] := h12.2
  have hE := setAll_isEmpty (failures (fetchOutcomes g c links))
  by_cases hem : (links.foldl (fetchInto g) ([], NewCollectionError, c)).2.1.Empty = true
  · rw [if_pos hem] at hr
    have hfs : failures (fetchOutcomes g c links) = [] := by
      apply hE.1
      rw [← hF]
      exact hem
    subst hr
    refine ⟨rfl, by simpa using h12.1, h3, fun _ => rfl, ?_⟩
    intro hne
    exact absurd (by simp [failedURIs, hfs]) hne
  · rw [if_neg hem] at hr
    subst hr
    refine ⟨rfl, by simpa using h12.1, h3, ?_, ?_⟩
    · intro hnil
      exfalso
      apply hem
      have hfs : failures (fetchOutcomes g c links) = [] := by
        simpa [failedURIs] using hnil
      unfold CollectionError.Empty
      rw [hF]
      exact hE.2 hfs
    · intro _
      exact ⟨_, rfl, by simpa using hem, hF⟩

theorem Certificates_eq {α : Type} (g : Client → String → Except Error α × Client)
    (db : SecureBootDatabase) (c : Client) :
    SecureBootDatabase.Certificates g db c
      = (if (db.certificates.foldl (fetchInto g) ([], NewCollectionError, c)).2.1.Empty
         then (db, ((db.certificates.foldl (fetchInto g) ([], NewCollectionError, c)).1, none), (db.certificates.foldl (fetchInto g) ([], NewCollectionError, c)).2.2)
         else (db, ((db.certificates.foldl (fetchInto g) ([], NewCollectionError, c)).1, some (db.certificates.foldl (fetchInto g) ([], NewCollectionError, c)).2.1), (db.certificates.foldl (fetchInto g) ([], NewCollectionError, c)).2.2)) := rfl

theorem Signatures_eq {α : Type} (g : Client → String → Except Error α × Client)
    (db : SecureBootDatabase) (c : Client) :
    SecureBootDatabase.Signatures g db c
      = (if (db.signatures.foldl (fetchInto g) ([], NewCollectionError, c)).2.1.Empty
         then (db, ((db.signatures.foldl (fetchInto g) ([], NewCollectionError, c)).1, none), (db.signatures.foldl (fetchInto g) ([], NewCollectionError, c)).2.2)
         else (db, ((db.signatures.foldl (fetchInto g) ([], NewCollectionError, c)).1, some (db.signatures.foldl (fetchInto g) ([], NewCollectionError, c)).2.1), (db.signatures.foldl (fetchInto g) ([], NewCollectionError, c)).2.2)) := rfl

/-- The partial-failure law for a loop result, in terms of the outcomes of the fetches. -/
theorem partial_failure_generic {α : Type} (outs : List (String × Except Error α))
    (n : Nat) (hn : outs.length = n) (items : List α) (err : Option CollectionError)
    (hitems : items = fetchedItems outs)
    (herr : failedURIs outs ≠ [] → ∃ ce, err = some ce ∧ ce.Empty = false ∧
        ce.Failures = (failures outs).foldl (fun m p => FailureMap.set m p.1 p.2) [])
    (hpos : 0 < (failedURIs outs).length) :
    ∃ ce, err = some ce ∧
      (∀ u, u ∈ ce.Failures.map Prod.fst ↔ u ∈ failedURIs outs) ∧
      ce.Failures.length = (failedURIs outs).dedup.length ∧
      ((failedURIs outs).Nodup → ce.Failures.length = (failedURIs outs).length) ∧
      items.length = n - (failedURIs outs).length := by
  have hne : failedURIs outs ≠ [] := by
    intro h
    rw [h] at hpos
    simp at hpos
  obtain ⟨ce, he, _, hF⟩ := herr hne
  have hlen : ce.Failures.length = (failedURIs outs).dedup.length := by
    rw [hF]
    exact length_setAll (failures outs)
  refine ⟨ce, he, ?_, hlen, ?_, ?_⟩
  · intro u
    rw [hF, mem_keys_setAll]
    simp [failedURIs]
  · intro hnd
    rw [hlen, List.Nodup.dedup hnd]
  · have := outcomes_count outs
    rw [hitems]
    omega

/-! ## Properties of `SecureBootDatabase` -/

/-- C2 (amended): when M of the N fetches of `SecureBootDatabase.Certificates` fail, with
0 < M < N, the error is a `CollectionError` whose failure map is keyed by exactly the failing
URIs, with one entry per distinct failing URI (so exactly M entries when the failing links are
pairwise distinct), and the result has exactly N - M entries; the same holds for
`SecureBootDatabase.Signatures` over the stored signature links. -/
theorem partial_failure_counts :
    (∀ (α : Type) (g : Client → String → Except Error α × Client) (db : SecureBootDatabase)
        (c : Client),
        0 < (failedURIs (fetchOutcomes g c db.certificates)).length →
        (failedURIs (fetchOutcomes g c db.certificates)).length < db.certificates.length →
        ∃ ce, (SecureBootDatabase.Certificates g db c).2.1.2 = some ce ∧
          (∀ u, u ∈ ce.Failures.map Prod.fst ↔ u ∈ failedURIs (fetchOutcomes g c db.certificates)) ∧
          ce.Failures.length = (failedURIs (fetchOutcomes g c db.certificates)).dedup.length ∧
          ((failedURIs (fetchOutcomes g c db.certificates)).Nodup →
            ce.Failures.length = (failedURIs (fetchOutcomes g c db.certificates)).length) ∧
          (SecureBootDatabase.Certificates g db c).2.1.1.length
            = db.certificates.length - (failedURIs (fetchOutcomes g c db.certificates)).length) ∧
    (∀ (α : Type) (g : Client → String → Except Error α × Client) (db : SecureBootDatabase)
        (c : Client),
        0 < (failedURIs (fetchOutcomes g c db.signatures)).length →
        (failedURIs (fetchOutcomes g c db.signatures)).length < db.signatures.length →
        ∃ ce, (SecureBootDatabase.Signatures g db c).2.1.2 = some ce ∧
          (∀ u, u ∈ ce.Failures.map Prod.fst ↔ u ∈ failedURIs (fetchOutcomes g c db.signatures)) ∧
          ce.Failures.length = (failedURIs (fetchOutcomes g c db.signatures)).dedup.length ∧
          ((failedURIs (fetchOutcomes g c db.signatures)).Nodup →
            ce.Failures.length = (failedURIs (fetchOutcomes g c db.signatures)).length) ∧
          (SecureBootDatabase.Signatures g db c).2.1.1.length
            = db.signatures.length - (failedURIs (fetchOutcomes g c db.signatures)).length) := by
  constructor
  · intro α g db c hpos _
    obtain ⟨_, h2, _, _, h5⟩ := loop_result g db db.certificates c _ (Certificates_eq g db c)
    exact partial_failure_generic _ db.certificates.length
      (fetchOutcomes_length _ _ _) _ _ h2 h5 hpos
  · intro α g db c hpos _
    obtain ⟨_, h2, _, _, h5⟩ := loop_result g db db.signatures c _ (Signatures_eq g db c)
    exact partial_failure_generic _ db.signatures.length
      (fetchOutcomes_length _ _ _) _ _ h2 h5 hpos

/-- C2, witness: the theorem at a database with three distinct links, the first of which
fails. -/
theorem partial_failure_counts_witness :
    ∃ ce, (SecureBootDatabase.Certificates (GetObject rawItem) threeLinks flakyClient).2.1.2
        = some ce ∧
      (∀ u, u ∈ ce.Failures.map Prod.fst ↔ u ∈ failedURIs (fetchOutcomes (GetObject rawItem) flakyClient threeLinks.certificates)) ∧
      ce.Failures.length = (failedURIs (fetchOutcomes (GetObject rawItem) flakyClient threeLinks.certificates)).dedup.length ∧
      ((failedURIs (fetchOutcomes (GetObject rawItem) flakyClient threeLinks.certificates)).Nodup → ce.Failures.length = (failedURIs (fetchOutcomes (GetObject rawItem) flakyClient threeLinks.certificates)).length) ∧
      (SecureBootDatabase.Certificates (GetObject rawItem) threeLinks flakyClient).2.1.1.length
        = threeLinks.certificates.length - (failedURIs (fetchOutcomes (GetObject rawItem) flakyClient threeLinks.certificates)).length :=
  partial_failure_counts.1 Bytes (GetObject rawItem) threeLinks flakyClient (by decide)
    (by decide)

/-- C2, counterexample: the database `twiceListed` stores N = 3 certificate links, the fetches
of M = 2 of them fail (the same URI, stored twice), and `Certificates` returns a failure map
with one entry, next to a result of N - M = 1 entries. -/
theorem partial_failure_counts_counterexample :
    twiceListed.certificates.length = 3 ∧
    (failedURIs (fetchOutcomes (GetObject rawItem) flakyClient
      twiceListed.certificates)).length = 2 ∧
    (SecureBootDatabase.Certificates (GetObject rawItem) twiceListed flakyClient).2.1.2
      = some { Failures := [("/certs/a", Error.TransportError "down")] } ∧
    (SecureBootDatabase.Certificates (GetObject rawItem) twiceListed flakyClient).2.1.1.length
      = 1 := by
  refine ⟨by decide, by decide, by decide, by decide⟩

/-- C3: `SecureBootDatabase.Certificates` returns a nil error exactly when no member fetch
failed; when at least one failed it returns a `CollectionError` that is not empty and is keyed
by the failing URIs, in the same call as the items that were fetched; the same holds for
`SecureBootDatabase.Signatures`. -/
theorem error_iff_some_fetch_failed :
    (∀ (α : Type) (g : Client → String → Except Error α × Client) (db : SecureBootDatabase)
        (c : Client),
        ((SecureBootDatabase.Certificates g db c).2.1.2 = none ↔ failedURIs (fetchOutcomes g c db.certificates) = []) ∧
        (failedURIs (fetchOutcomes g c db.certificates) ≠ [] →
          ∃ ce, (SecureBootDatabase.Certificates g db c).2.1.2 = some ce ∧ ce.Empty = false ∧
            (∀ u, u ∈ ce.Failures.map Prod.fst ↔ u ∈ failedURIs (fetchOutcomes g c db.certificates)) ∧
            (SecureBootDatabase.Certificates g db c).2.1.1 = fetchedItems (fetchOutcomes g c db.certificates))) ∧
    (∀ (α : Type) (g : Client → String → Except Error α × Client) (db : SecureBootDatabase)
        (c : Client),
        ((SecureBootDatabase.Signatures g db c).2.1.2 = none ↔ failedURIs (fetchOutcomes g c db.signatures) = []) ∧
        (failedURIs (fetchOutcomes g c db.signatures) ≠ [] →
          ∃ ce, (SecureBootDatabase.Signatures g db c).2.1.2 = some ce ∧ ce.Empty = false ∧
            (∀ u, u ∈ ce.Failures.map Prod.fst ↔ u ∈ failedURIs (fetchOutcomes g c db.signatures)) ∧
            (SecureBootDatabase.Signatures g db c).2.1.1 = fetchedItems (fetchOutcomes g c db.signatures))) := by
  have gen : ∀ (α : Type) (outs : List (String × Except Error α)) (items : List α)
      (err : Option CollectionError), items = fetchedItems outs →
      (failedURIs outs = [] → err = none) →
      (failedURIs outs ≠ [] → ∃ ce, err = some ce ∧ ce.Empty = false ∧
        ce.Failures = (failures outs).foldl (fun m p => FailureMap.set m p.1 p.2) []) →
      (err = none ↔ failedURIs outs = []) ∧
      (failedURIs outs ≠ [] → ∃ ce, err = some ce ∧ ce.Empty = false ∧
        (∀ u, u ∈ ce.Failures.map Prod.fst ↔ u ∈ failedURIs outs) ∧
        items = fetchedItems outs) := by
    intro α outs items err hi h4 h5
    constructor
    · constructor
      · intro hnone
        by_contra hne
        obtain ⟨ce, he, _⟩ := h5 hne
        rw [he] at hnone
        cases hnone
      · exact h4
    · intro hne
      obtain ⟨ce, he, hemp, hF⟩ := h5 hne
      refine ⟨ce, he, hemp, ?_, hi⟩
      intro u
      rw [hF, mem_keys_setAll]
      simp [failedURIs]
  constructor
  · intro α g db c
    obtain ⟨_, h2, _, h4, h5⟩ := loop_result g db db.certificates c _ (Certificates_eq g db c)
    exact gen α _ _ _ h2 h4 h5
  · intro α g db c
    obtain ⟨_, h2, _, h4, h5⟩ := loop_result g db db.signatures c _ (Signatures_eq g db c)
    exact gen α _ _ _ h2 h4 h5

/-- C3, witness: the theorem at a database with three distinct links, the first of which
fails. -/
theorem error_iff_some_fetch_failed_witness :
    ∃ ce, (SecureBootDatabase.Certificates (GetObject rawItem) threeLinks flakyClient).2.1.2
        = some ce ∧
      ce.Empty = false ∧
      (∀ u, u ∈ ce.Failures.map Prod.fst ↔ u ∈ failedURIs (fetchOutcomes (GetObject rawItem) flakyClient threeLinks.certificates)) ∧
      (SecureBootDatabase.Certificates (GetObject rawItem) threeLinks flakyClient).2.1.1
        = fetchedItems (fetchOutcomes (GetObject rawItem) flakyClient threeLinks.certificates) :=
  (error_iff_some_fetch_failed.1 Bytes (GetObject rawItem) threeLinks flakyClient).2
    (by decide)

/-- C10: whatever the fetch function, `SecureBootDatabase.Certificates` makes exactly one
fetch per stored certificate link, in stored order, each on the client left by the fetch
before it and whatever that fetch gave, and its result is exactly the items of the fetches
that succeeded, in stored link order; when a fetch is one GET followed by decoding, the
requests sent are one GET per stored link in stored order, and the outcome at position `i` is
the answer to the GET of the link at position `i` sent after the GETs of the links before it;
the same holds for `SecureBootDatabase.Signatures`. -/
theorem fetch_each_link_once :
    (∀ (α : Type) (g : Client → String → Except Error α × Client) (db : SecureBootDatabase)
        (c : Client),
        (SecureBootDatabase.Certificates g db c).2.2 = db.certificates.foldl (fun c u => (g c u).2) c ∧
        (SecureBootDatabase.Certificates g db c).2.1.1 = fetchedItems (fetchOutcomes g c db.certificates) ∧
        (fetchOutcomes g c db.certificates).map Prod.fst = db.certificates) ∧
    (∀ (α : Type) (decode : Bytes → Except Error α) (db : SecureBootDatabase) (c : Client),
        (SecureBootDatabase.Certificates (GetObject decode) db c).2.2.log
          = c.log ++ db.certificates.map Request.get ∧
        (∀ (i : Nat) (u : String), db.certificates[i]? = some u →
          (fetchOutcomes (GetObject decode) c db.certificates)[i]? = some (u, (GetObject decode
            { respond := c.respond, log := c.log ++ (db.certificates.take i).map Request.get } u).1))) ∧
    (∀ (α : Type) (g : Client → String → Except Error α × Client) (db : SecureBootDatabase)
        (c : Client),
        (SecureBootDatabase.Signatures g db c).2.2 = db.signatures.foldl (fun c u => (g c u).2) c ∧
        (SecureBootDatabase.Signatures g db c).2.1.1 = fetchedItems (fetchOutcomes g c db.signatures) ∧
        (fetchOutcomes g c db.signatures).map Prod.fst = db.signatures) ∧
    (∀ (α : Type) (decode : Bytes → Except Error α) (db : SecureBootDatabase) (c : Client),
        (SecureBootDatabase.Signatures (GetObject decode) db c).2.2.log
          = c.log ++ db.signatures.map Request.get ∧
        (∀ (i : Nat) (u : String), db.signatures[i]? = some u →
          (fetchOutcomes (GetObject decode) c db.signatures)[i]? = some (u, (GetObject decode
            { respond := c.respond, log := c.log ++ (db.signatures.take i).map Request.get } u).1))) := by
  refine ⟨?_, ?_, ?_, ?_⟩
  · intro α g db c
    obtain ⟨_, h2, h3, _, _⟩ := loop_result g db db.certificates c _ (Certificates_eq g db c)
    exact ⟨h3, h2, fetchOutcomes_links _ _ _⟩
  · intro α decode db c
    obtain ⟨_, _, h3, _, _⟩ := loop_result (GetObject decode) db db.certificates c _
      (Certificates_eq (GetObject decode) db c)
    refine ⟨by rw [h3, foldl_GetObject_client], ?_⟩
    intro i u hi
    exact fetchOutcomes_at decode db.certificates c i u hi
  · intro α g db c
    obtain ⟨_, h2, h3, _, _⟩ := loop_result g db db.signatures c _ (Signatures_eq g db c)
    exact ⟨h3, h2, fetchOutcomes_links _ _ _⟩
  · intro α decode db c
    obtain ⟨_, _, h3, _, _⟩ := loop_result (GetObject decode) db db.signatures c _
      (Signatures_eq (GetObject decode) db c)
    refine ⟨by rw [h3, foldl_GetObject_client], ?_⟩
    intro i u hi
    exact fetchOutcomes_at decode db.signatures c i u hi

/-- C10, witness: the theorem at a database with three distinct links, the first of which
fails; the link at position 1 is fetched after the failed one. -/
theorem fetch_each_link_once_witness :
    (fetchOutcomes (GetObject rawItem) flakyClient threeLinks.certificates)[1]?
      = some ("/certs/b", (GetObject rawItem
          { respond := flakyClient.respond,
            log := flakyClient.log ++ (threeLinks.certificates.take 1).map Request.get }
          "/certs/b").1) :=
  (fetch_each_link_once.2.1 Bytes rawItem threeLinks flakyClient).2 1 "/certs/b" rfl

/-- C9 (evaluation of the code): the first page of the collection lists one member and a next
page, the fetch of the member fails and so does the fetch of the next page.  The workers send
one outcome on the channel, for the member; the consumer loop on it assigns the failure map
under the link of the member only; the map that `ListReferencedSecureBootDatabases` returns
has a second entry, under the link of the collection, which is the assignment made by the
producer task. -/
theorem producer_writes_failure_map :
    (CollectList pagedPages (sendSecureBootDatabase (fun _ => none)) 2 pagedClient
      databasesLink []).map
        (fun r => r.2.1.map (fun g => g.Link)) = some [memberLink] ∧
    (CollectList pagedPages (sendSecureBootDatabase (fun _ => none)) 2 pagedClient
      databasesLink []).map
        (fun r => (drain r.2.1 ([], NewCollectionError)).2.Failures.map Prod.fst)
      = some [memberLink] ∧
    (ListReferencedSecureBootDatabases (fun _ => none) pagedPages 2 pagedClient
      databasesLink).map (fun r => r.err.map (fun ce => ce.Failures.map Prod.fst))
      = some (some [memberLink, databasesLink]) := by
  refine ⟨by decide, by decide, by decide⟩

end Gofish
